import Mathlib

/-! # Graceful restart (`grace/server.go`, `grace/listener.go`)

A shallow embedding of the graceful-restart core of the repository: the
listener shim (`graceListener`), the server lifecycle (`Serve`, `shutdown`,
`serverTimeout`), listener acquisition (`getListener`, `ListenAndServe`,
`ListenAndServeTLS`) and the fork coordinator (`fork`). The memory session
provider of `session/sess_mem.go` follows in the namespace `Session`.

Conventions of the embedding

* A Go `error` is an `Option String` (`none` is `nil`).
* Every effect the properties speak about (starting a goroutine, sending on a
  channel, closing a socket, launching a process, ...) is recorded as an
  `Event`; an operation returns the events it performed, in program order.
* An operation that may fail to return carries a `Completion`.
* What the operating system answers (`net.Listen`, `net.FileListener`,
  `cmd.Start`, ...) is a field of the oracle record `OS`.
* `log.Println` / `log.Printf` calls have no effect on the program state and
  are left out; `log.Fatalf` ends the process and is kept.
-/

namespace Grace

/-! ## Basic types -/

/-- Go `error`: `none` is `nil`. -/
abbrev GoError := Option String

/-- The value of `syscall.EINVAL` as an error. -/
def EINVAL : String := "invalid argument"

/-- Modelled from the spec: the lifecycle constant `STATE_RUNNING`, declared in
a file of package `grace` that is not part of the sources at hand. The three
lifecycle constants are distinct `uint8` values, numbered in lifecycle order
(spec §4.3: `Running → ShuttingDown → Terminated`). -/
def STATE_RUNNING : Nat := 1

/-- Modelled from the spec: the lifecycle constant `STATE_SHUTTING_DOWN`
(see `STATE_RUNNING`). -/
def STATE_SHUTTING_DOWN : Nat := 2

/-- Modelled from the spec: the lifecycle constant `STATE_TERMINATE`
(see `STATE_RUNNING`). -/
def STATE_TERMINATE : Nat := 3

/-- The signals `handleSignals` distinguishes; `other` carries the number of
any signal it does not care about. -/
inductive Signal
  | SIGHUP
  | SIGINT
  | SIGTERM
  | other (n : Nat)
  deriving DecidableEq, Repr

/-- Modelled from the spec: the hook phase `PRE_SIGNAL`, declared outside the
sources at hand. -/
def PRE_SIGNAL : Nat := 0

/-- Modelled from the spec: the hook phase `POST_SIGNAL`, declared outside the
sources at hand. -/
def POST_SIGNAL : Nat := 1

/-- An `*os.File`: the descriptor of a socket, by the identity of the socket. -/
structure File where
  sock : Nat
  deriving DecidableEq, Repr

/-- How an operation ends: it returns to its caller, it panics, it blocks for
ever, or it ends the process (`log.Fatalf`). -/
inductive Completion
  | returned
  | panicked
  | blocked
  | exited
  deriving DecidableEq, Repr

/-- The observable effects of the operations. -/
inductive Event
  /-- `go srv.handleSignals()` -/
  | goHandleSignals
  /-- `go srv.serverTimeout(d)` -/
  | goServerTimeout (d : Int)
  /-- `el.stop <- nil` in `graceListener.Close` -/
  | stopSend (sock : Nat)
  /-- `el.Listener.Close()` on the underlying listener -/
  | netClose (sock : Nat)
  /-- `os.NewFile(uintptr(fd), "")` -/
  | newFile (fd : Nat)
  /-- `net.Listen(network, laddr)` -/
  | netListen (network laddr : String)
  /-- `process.Kill()` on the parent process -/
  | killParent
  /-- `srv.Serve()` entered -/
  | serveEnter
  /-- `cmd.Start()` of `exec.Command(path, args...)` with `cmd.ExtraFiles = files` -/
  | cmdStart (path : String) (args : List String) (files : List (Option File))
  /-- the `idx`-th hook registered for `(ppFlag, sig)` is called -/
  | hook (ppFlag : Nat) (sig : Signal) (idx : Nat)
  /-- `srv.wg.Done()` -/
  | wgDone
  deriving DecidableEq, Repr

/-! ## The listener shim (`listener.go`) -/

/-- The wrapped `net.Listener`, a `*net.TCPListener` as `Accept` and `File`
assert: the socket it listens on and the error its `Close()` answers. -/
structure NetListener where
  sock : Nat
  closeErr : GoError
  deriving DecidableEq, Repr

/-- The struct `graceListener`. The unbuffered channel `stop` has one possible
receiver, the task started by `newGraceListener`; `taskWaiting` says that this
task is still blocked in `_ = <-el.stop`. The field `server` is a back pointer
used by `Accept` only and is not represented. -/
structure graceListener where
  Listener : NetListener
  stopped : Bool
  taskWaiting : Bool
  deriving DecidableEq, Repr

/-- `newGraceListener(l, srv)`: `stopped` has its zero value and the
background task is started, waiting on `stop`. -/
def newGraceListener (l : NetListener) : graceListener :=
  { Listener := l, stopped := false, taskWaiting := true }

/-- The result of a call of `graceListener.Close`. -/
structure CloseResult where
  err : GoError
  el : graceListener
  events : List Event
  done : Completion
  deriving DecidableEq, Repr

/-- `graceListener.Close`. With `stopped` set it returns `syscall.EINVAL`.
Otherwise it sends on `stop`; the background task receives, sets `stopped`,
closes the underlying listener and sends the result back, which `Close`
returns. When no task is left to receive, the send blocks for ever. -/
def graceListener.Close (el : graceListener) : CloseResult :=
  if el.stopped then
    { err := some EINVAL, el := el, events := [], done := .returned }
  else if el.taskWaiting then
    { err := el.Listener.closeErr
      el := { el with stopped := true, taskWaiting := false }
      events := [.stopSend el.Listener.sock, .netClose el.Listener.sock]
      done := .returned }
  else
    { err := none, el := el, events := [.stopSend el.Listener.sock], done := .blocked }

/-- `graceListener.File`: a duplicate of the descriptor of the underlying
listener (`fl, _ := tl.File()`). -/
def graceListener.File (el : graceListener) : File :=
  { sock := el.Listener.sock }

/-- `n` further calls of `Close`, one after the other, each on the listener
the previous one left: the errors returned, the events performed, the final
listener, and whether all calls returned. -/
def closeAgain : Nat → graceListener → List GoError × List Event × graceListener × Bool
  | 0, el => ([], [], el, true)
  | n + 1, el =>
    let r := el.Close
    if r.done = .returned then
      let rest := closeAgain n r.el
      (r.err :: rest.1, r.events ++ rest.2.1, rest.2.2.1, rest.2.2.2)
    else
      ([], r.events, r.el, false)

/-! ## The server (`server.go`) -/

/-- What the interface field `GraceListener` holds: a `*graceListener`
(`ListenAndServe`) or the listener made by `tls.NewListener` around the
`graceListener` that `tlsInnerListener` points to (`ListenAndServeTLS`). -/
inductive ListenerIface
  | shim (gl : graceListener)
  | tlsOver (inner : graceListener)
  deriving DecidableEq, Repr

/-- The struct `graceServer`. `Addr` is the field of the embedded
`*http.Server`; `wg` is the counter of the `sync.WaitGroup`; `SignalHooks`
lists, for a phase and a signal that have an entry in the map, the number of
hooks registered. The channel `sigChan` is the input of `handleSignal`. -/
structure graceServer where
  Addr : String
  Network : String
  isChild : Bool
  state : Nat
  wg : Nat
  GraceListener : Option ListenerIface
  tlsInnerListener : Option graceListener
  SignalHooks : List ((Nat × Signal) × Nat)
  deriving DecidableEq, Repr

/-- `Close()` through the interface value: on a `*graceListener` it is
`graceListener.Close`; the TLS listener embeds the inner listener and passes
`Close` on to it. -/
def ListenerIface.Close : ListenerIface → CloseResult × ListenerIface
  | .shim gl => (gl.Close, .shim gl.Close.el)
  | .tlsOver inner => (inner.Close, .tlsOver inner.Close.el)

/-- The result of an operation on one server. -/
structure SrvResult where
  srv : graceServer
  events : List Event
  done : Completion
  deriving DecidableEq, Repr

/-- `graceServer.shutdown`, with the package variable `DefaultTimeout` as a
parameter. A nil `GraceListener` makes `srv.GraceListener.Close()` panic. In
the TLS case the listener closed through the interface is the object
`tlsInnerListener` points to, so both fields see the change. -/
def graceServer.shutdown (DefaultTimeout : Int) (srv : graceServer) : SrvResult :=
  if srv.state ≠ STATE_RUNNING then
    { srv := srv, events := [], done := .returned }
  else
    let srv1 := { srv with state := STATE_SHUTTING_DOWN }
    let ev1 : List Event := if DefaultTimeout ≥ 0 then [.goServerTimeout DefaultTimeout] else []
    match srv1.GraceListener with
    | none => { srv := srv1, events := ev1, done := .panicked }
    | some (.shim gl) =>
      let r := gl.Close
      { srv := { srv1 with GraceListener := some (.shim r.el) }
        events := ev1 ++ r.events
        done := r.done }
    | some (.tlsOver inner) =>
      let r := inner.Close
      { srv := { srv1 with GraceListener := some (.tlsOver r.el), tlsInnerListener := some r.el }
        events := ev1 ++ r.events
        done := r.done }

/-- The first statement of `Serve`: `srv.state = STATE_RUNNING`. -/
def graceServer.serveStart (srv : graceServer) : graceServer :=
  { srv with state := STATE_RUNNING }

/-- The end of `Serve`, run once `srv.wg.Wait()` has returned:
`srv.state = STATE_TERMINATE`. -/
def graceServer.serveEnd (srv : graceServer) : graceServer :=
  { srv with state := STATE_TERMINATE }

/-- `graceServer.signalHooks`: nothing when the map has no entry for
`(ppFlag, sig)`, else every registered hook is called in order. The hooks are
callbacks of the embedding program; the call is recorded, their own effects
are outside the model. -/
def graceServer.signalHooks (srv : graceServer) (ppFlag : Nat) (sig : Signal) : List Event :=
  match srv.SignalHooks.lookup (ppFlag, sig) with
  | none => []
  | some n => (List.range n).map (Event.hook ppFlag sig)

/-! ### Acquiring the listener -/

/-- The answers of the operating system and of the standard library. -/
structure OS where
  /-- `net.FileListener(os.NewFile(fd, ""))` -/
  fileListener : Nat → Except String NetListener
  /-- `net.Listen(network, laddr)` -/
  listen : String → String → Except String NetListener
  /-- `tls.LoadX509KeyPair(certFile, keyFile)` -/
  loadX509KeyPair : String → String → GoError
  /-- `os.FindProcess(os.Getppid())` -/
  findParent : GoError
  /-- `process.Kill()` -/
  kill : GoError
  /-- `cmd.Start()` for `exec.Command(path, args...)` with the extra files -/
  cmdStart : String → List String → List (Option File) → GoError

/-- The package variable `socketPtrOffsetMap` (`map[string]uint`), as the list
of its entries. -/
abbrev OffsetMap := List (String × Nat)

/-- The index expression `socketPtrOffsetMap[addr]`: the zero value when the
key is absent. -/
def offsetOf (m : OffsetMap) (addr : String) : Nat :=
  (m.lookup addr).getD 0

/-- The result of `getListener`: the listener or the error, and the events. -/
structure ListenResult where
  res : Except String NetListener
  events : List Event

/-- `graceServer.getListener`. `3+ptrOffset` is computed in `uint` (64 bit). -/
def graceServer.getListener (os : OS) (m : OffsetMap) (srv : graceServer) (laddr : String) :
    ListenResult :=
  if srv.isChild then
    let ptrOffset : Nat := if m.length > 0 then offsetOf m laddr else 0
    let fd := (3 + ptrOffset) % 2 ^ 64
    match os.fileListener fd with
    | .error e => { res := .error ("net.FileListener error: " ++ e), events := [.newFile fd] }
    | .ok l => { res := .ok l, events := [.newFile fd] }
  else
    match os.listen srv.Network laddr with
    | .error e =>
      { res := .error ("net.Listen error: " ++ e), events := [.netListen srv.Network laddr] }
    | .ok l => { res := .ok l, events := [.netListen srv.Network laddr] }

/-- How `ListenAndServe` / `ListenAndServeTLS` go on: they return an error
without calling `Serve`, or they reach `return srv.Serve()`. -/
inductive Started
  | failed (err : String)
  | serving
  deriving DecidableEq, Repr

/-- The result of `ListenAndServe` / `ListenAndServeTLS` up to the call of
`Serve`. -/
structure StartResult where
  srv : graceServer
  events : List Event
  out : Started
  deriving DecidableEq, Repr

/-- The block `if srv.isChild { ... }` shared by `ListenAndServe` and
`ListenAndServeTLS`, followed by `return srv.Serve()`. -/
def killParentThenServe (os : OS) (srv : graceServer) (events : List Event) : StartResult :=
  if srv.isChild then
    match os.findParent with
    | some e => { srv := srv, events := events, out := .failed e }
    | none =>
      match os.kill with
      | some e => { srv := srv, events := events ++ [.killParent], out := .failed e }
      | none => { srv := srv, events := events ++ [.killParent, .serveEnter], out := .serving }
  else
    { srv := srv, events := events ++ [.serveEnter], out := .serving }

/-- `graceServer.ListenAndServe`, up to the call of `Serve`. -/
def graceServer.ListenAndServe (os : OS) (m : OffsetMap) (srv : graceServer) : StartResult :=
  let addr := if srv.Addr = "" then ":http" else srv.Addr
  let ev0 : List Event := [.goHandleSignals]
  let r := srv.getListener os m addr
  match r.res with
  | .error e => { srv := srv, events := ev0 ++ r.events, out := .failed e }
  | .ok l =>
    let srv1 := { srv with GraceListener := some (.shim (newGraceListener l)) }
    killParentThenServe os srv1 (ev0 ++ r.events)

/-- `graceServer.ListenAndServeTLS`, up to the call of `Serve`. The TLS
configuration has no part in the properties and is not represented. -/
def graceServer.ListenAndServeTLS (os : OS) (m : OffsetMap) (srv : graceServer)
    (certFile keyFile : String) : StartResult :=
  let addr := if srv.Addr = "" then ":https" else srv.Addr
  match os.loadX509KeyPair certFile keyFile with
  | some e => { srv := srv, events := [], out := .failed e }
  | none =>
    let ev0 : List Event := [.goHandleSignals]
    let r := srv.getListener os m addr
    match r.res with
    | .error e => { srv := srv, events := ev0 ++ r.events, out := .failed e }
    | .ok l =>
      let inner := newGraceListener l
      let srv1 := { srv with tlsInnerListener := some inner, GraceListener := some (.tlsOver inner) }
      killParentThenServe os srv1 (ev0 ++ r.events)

/-! ### The fork coordinator -/

/-- The package variables used by `fork` and `shutdown`, and `os.Args`. They
are declared in a file of package `grace` that is not part of the sources at
hand; `runningServers` is given in the order in which
`for _, srvPtr := range runningServers` visits it. -/
structure Globals where
  runningServersForked : Bool
  runningServers : List graceServer
  socketPtrOffsetMap : OffsetMap
  DefaultTimeout : Int
  osArgs : List String
  deriving DecidableEq, Repr

/-- The descriptor `fork` takes from one server: the `type` switch on
`srvPtr.GraceListener`. `none` is the nil dereference of the `default` branch
when `tlsInnerListener` is nil. -/
def exportedFile (s : graceServer) : Option File :=
  match s.GraceListener with
  | some (.shim gl) => some gl.File
  | _ => s.tlsInnerListener.map graceListener.File

/-- The loop `for _, srvPtr := range runningServers` of `fork` over the slices
`files` and `orderArgs`. `none` is a panic: an index out of range or the nil
dereference of `exportedFile`. -/
def forkLoop (m : OffsetMap) :
    List graceServer → List (Option File) × List String → Option (List (Option File) × List String)
  | [], acc => some acc
  | s :: rest, (files, orderArgs) =>
    let i := offsetOf m s.Addr
    match exportedFile s with
    | none => none
    | some f =>
      if i < files.length ∧ i < orderArgs.length then
        forkLoop m rest (files.set i (some f), orderArgs.set i s.Addr)
      else none

/-- The slices `files` and `orderArgs` of `fork` after the loop, from
`make([]*os.File, n)` and `make([]string, n)`. -/
def forkLists (m : OffsetMap) (servers : List graceServer) :
    Option (List (Option File) × List String) :=
  forkLoop m servers (List.replicate servers.length none, List.replicate servers.length "")

/-- The loop `for _, arg := range os.Args[1:]` of `fork`, which stops at the
first `"-graceful"`; `args` is the slice built so far. -/
def copyArgs : List String → List String → List String
  | [], args => args
  | arg :: rest, args => if arg = "-graceful" then args else copyArgs rest (args ++ [arg])

/-- The ordering argument of `fork`:
`fmt.Sprintf("-socketorder=%s", strings.Join(orderArgs, ","))`. -/
def socketOrderArg (orderArgs : List String) : String :=
  "-socketorder=" ++ ",".intercalate orderArgs

/-- The argument list `args` that `fork` passes to `exec.Command`, for
`os.Args`, `len(runningServers)` and the slice `orderArgs`. -/
def forkArgs (osArgs : List String) (n : Nat) (orderArgs : List String) : List String :=
  let args := if osArgs.length > 1 then copyArgs (osArgs.drop 1) [] else []
  let args := args ++ ["-graceful"]
  if n > 1 then args ++ [socketOrderArg orderArgs] else args

/-- The result of `fork`. -/
structure ForkResult where
  g : Globals
  err : GoError
  events : List Event
  done : Completion
  deriving DecidableEq, Repr

/-- `graceServer.fork`. It uses no field of its receiver. `regLock` is held
from entry to exit, so calls of `fork` run one after the other. A failing
`cmd.Start()` reaches `log.Fatalf`, which ends the process. -/
def fork (os : OS) (g : Globals) : ForkResult :=
  if g.runningServersForked then
    { g := g, err := none, events := [], done := .returned }
  else
    let g1 := { g with runningServersForked := true }
    match forkLists g.socketPtrOffsetMap g.runningServers with
    | none => { g := g1, err := none, events := [], done := .panicked }
    | some (files, orderArgs) =>
      match g.osArgs with
      | [] => { g := g1, err := none, events := [], done := .panicked }
      | path :: _ =>
        let args := forkArgs g.osArgs g.runningServers.length orderArgs
        match os.cmdStart path args files with
        | some e => { g := g1, err := some e, events := [.cmdStart path args files], done := .exited }
        | none => { g := g1, err := none, events := [.cmdStart path args files], done := .returned }

/-! ### Signal handling -/

/-- One process as seen from the `handleSignals` task of one server: the
package variables, the server, the events so far, and whether the process is
still running (`returned`) or how it stopped. -/
structure Proc where
  g : Globals
  srv : graceServer
  events : List Event
  done : Completion
  deriving DecidableEq, Repr

/-- One turn of the loop of `handleSignals` for the signal `sig` taken from
`srv.sigChan`: the pre-signal hooks, the `switch`, the post-signal hooks. A
turn that panics, blocks or ends the process does not reach what follows. -/
def handleSignal (os : OS) (sig : Signal) (p : Proc) : Proc :=
  if p.done ≠ .returned then p
  else
    let pre := p.srv.signalHooks PRE_SIGNAL sig
    match sig with
    | .SIGHUP =>
      let r := fork os p.g
      if r.done = .returned then
        { g := r.g, srv := p.srv
          events := p.events ++ pre ++ r.events ++ p.srv.signalHooks POST_SIGNAL sig
          done := .returned }
      else
        { g := r.g, srv := p.srv, events := p.events ++ pre ++ r.events, done := r.done }
    | .SIGINT | .SIGTERM =>
      let r := p.srv.shutdown p.g.DefaultTimeout
      if r.done = .returned then
        { g := p.g, srv := r.srv
          events := p.events ++ pre ++ r.events ++ r.srv.signalHooks POST_SIGNAL sig
          done := .returned }
      else
        { g := p.g, srv := r.srv, events := p.events ++ pre ++ r.events, done := r.done }
    | .other _ =>
      { p with events := p.events ++ pre ++ p.srv.signalHooks POST_SIGNAL sig }

/-- The loop of `handleSignals` over the signals `sigs`, in order of arrival. -/
def handleSignals (os : OS) (sigs : List Signal) (p : Proc) : Proc :=
  sigs.foldl (fun q sig => handleSignal os sig q) p

/-- The number of process launches among the events. -/
def launches (events : List Event) : Nat :=
  (events.filter fun e => match e with
    | .cmdStart _ _ _ => true
    | _ => false).length

/-! ### The serve loop and the tasks around it -/

/-- The effect on the server of a successful `graceListener.Accept`:
`gl.server.wg.Add(1)`. -/
def graceServer.accepted (srv : graceServer) : graceServer :=
  { srv with wg := srv.wg + 1 }

/-- Modelled from the spec: the first `Close` of a `graceConn` (its method is in
a file of package `grace` that is not part of the sources at hand; spec §4.2:
on first close it decrements the owning server's outstanding-connection
counter exactly once). `srv.wg.Done()` on a counter that is zero panics. -/
def graceServer.connClosed (srv : graceServer) : SrvResult :=
  if srv.wg = 0 then { srv := srv, events := [.wgDone], done := .panicked }
  else { srv := { srv with wg := srv.wg - 1 }, events := [.wgDone], done := .returned }

/-- The number of `serverTimeout` tasks started among the events. -/
def timerStarts (events : List Event) : Nat :=
  (events.filter fun e => match e with
    | .goServerTimeout _ => true
    | _ => false).length

/-- Where the control of `Serve` is: not yet called, inside
`srv.Server.Serve(srv.GraceListener)`, in `srv.wg.Wait()`, or returned. -/
inductive ServePhase
  | idle
  | accepting
  | waiting
  | returned
  deriving DecidableEq, Repr

/-- One server with the tasks that act on it: the process as seen by
`handleSignals`, the control point of `Serve`, the numbers of connections
accepted and closed, and the `serverTimeout` tasks that are started but have
not run their entry check (`timersNew`) or are in their loop (`timersLoop`). -/
structure Sys where
  p : Proc
  phase : ServePhase
  nAccepted : Nat
  nClosed : Nat
  timersNew : Nat
  timersLoop : Nat
  deriving DecidableEq, Repr

/-- The atomic steps of the tasks. -/
inductive Label
  /-- `Serve` is called: `srv.state = STATE_RUNNING`, then the accept loop -/
  | serveStart
  /-- the accept loop gets a connection from `graceListener.Accept` -/
  | accept
  /-- `srv.Server.Serve(srv.GraceListener)` returns; `Serve` goes on to `srv.wg.Wait()` -/
  | serveLoopEnd
  /-- an accepted connection is closed for the first time -/
  | connClose
  /-- `handleSignals` takes a signal from `srv.sigChan` -/
  | signal (sig : Signal)
  /-- a started `serverTimeout` task runs its entry check and sleeps -/
  | timerEnter
  /-- a `serverTimeout` task runs one turn of its `for` loop -/
  | timerTurn
  /-- `srv.wg.Wait()` returns; `srv.state = STATE_TERMINATE`; `Serve` returns -/
  | serveFinish
  deriving DecidableEq, Repr

/-- One step of the system; `none` when the step is not enabled. No step is
enabled once the process has ended (a panic that is not recovered, or
`log.Fatalf`); when only the `handleSignals` task is blocked, the other tasks
go on and further signals are not handled. `srv.wg.Wait()` returns only on a
zero counter. -/
def Sys.step (os : OS) (l : Label) (s : Sys) : Option Sys :=
  if s.p.done = .panicked ∨ s.p.done = .exited then none
  else
    match l with
    | .serveStart =>
      if s.phase = .idle then
        some { s with p := { s.p with srv := s.p.srv.serveStart, events := s.p.events ++ [.serveEnter] }
                      phase := .accepting }
      else none
    | .accept =>
      if s.phase = .accepting then
        some { s with p := { s.p with srv := s.p.srv.accepted }, nAccepted := s.nAccepted + 1 }
      else none
    | .serveLoopEnd =>
      if s.phase = .accepting then some { s with phase := .waiting } else none
    | .connClose =>
      if s.nClosed < s.nAccepted then
        let r := s.p.srv.connClosed
        some { s with p := { s.p with srv := r.srv, events := s.p.events ++ r.events
                                      done := if r.done = .panicked then .panicked else s.p.done }
                      nClosed := s.nClosed + 1 }
      else none
    | .signal sig =>
      let q := handleSignal os sig s.p
      some { s with p := q
                    timersNew := s.timersNew + (timerStarts q.events - timerStarts s.p.events) }
    | .timerEnter =>
      if s.timersNew = 0 then none
      else if s.p.srv.state ≠ STATE_SHUTTING_DOWN then some { s with timersNew := s.timersNew - 1 }
      else some { s with timersNew := s.timersNew - 1, timersLoop := s.timersLoop + 1 }
    | .timerTurn =>
      if s.timersLoop = 0 then none
      else if s.p.srv.state = STATE_TERMINATE then some { s with timersLoop := s.timersLoop - 1 }
      else if s.p.srv.wg = 0 then
        some { s with p := { s.p with events := s.p.events ++ [.wgDone] }
                      timersLoop := s.timersLoop - 1 }
      else
        some { s with p := { s.p with srv := { s.p.srv with wg := s.p.srv.wg - 1 }
                                      events := s.p.events ++ [.wgDone] } }
    | .serveFinish =>
      if s.phase = .waiting ∧ s.p.srv.wg = 0 then
        some { s with p := { s.p with srv := s.p.srv.serveEnd }, phase := .returned }
      else none

/-- A run: the steps `ls` one after the other; `none` when one of them is not
enabled. -/
def Sys.run (os : OS) : List Label → Sys → Option Sys
  | [], s => some s
  | l :: ls, s => (s.step os l).bind (Sys.run os ls)

/-- The system at the start: the server as constructed, with a fresh
`WaitGroup`, before `Serve` is called; no connection, no timer task. -/
def Sys.start (g : Globals) (srv : graceServer) : Sys :=
  { p := { g := g, srv := { srv with wg := 0 }, events := [], done := .returned }
    phase := .idle, nAccepted := 0, nClosed := 0, timersNew := 0, timersLoop := 0 }

/-! ### The writes of `srv.state` -/

/-- The operations that write `srv.state`. -/
inductive StateOp
  | serveStart
  | shutdown
  | serveEnd
  deriving DecidableEq, Repr

/-- The server after an operation that writes `srv.state`. -/
def StateOp.apply (DefaultTimeout : Int) : StateOp → graceServer → graceServer
  | .serveStart, srv => srv.serveStart
  | .shutdown, srv => (srv.shutdown DefaultTimeout).srv
  | .serveEnd, srv => srv.serveEnd

/-- The results of `n` calls of `fork`, one after the other, each on the package
variables the previous one left; a call that does not return is the last. -/
def forkCalls (os : OS) : Nat → Globals → List ForkResult
  | 0, _ => []
  | n + 1, g =>
    let r := fork os g
    if r.done = .returned then r :: forkCalls os n r.g else [r]

/-- The guard and the launches agree: while the guard is not set nothing has
been launched, and at most one process has been launched in all. -/
def GuardInv (p : Proc) : Prop :=
  (p.g.runningServersForked = false → launches p.events = 0) ∧ launches p.events ≤ 1

/-- The invariant of the runs without drain timeout: no `serverTimeout` task
exists, the counter is the number of accepted connections that are not closed,
and `Serve` has returned only with a zero counter and the state
`STATE_TERMINATE`. -/
def DrainInv (s : Sys) : Prop :=
  s.p.g.DefaultTimeout < 0 ∧ timerStarts s.p.events = 0 ∧
  s.timersNew = 0 ∧ s.timersLoop = 0 ∧
  s.p.srv.wg + s.nClosed = s.nAccepted ∧
  (s.phase = .returned → s.p.srv.wg = 0 ∧ s.p.srv.state = STATE_TERMINATE)

/-! ### `serverTimeout` -/

/-- The result of `serverTimeout`: the server, the number of calls of
`srv.wg.Done()` that succeeded, whether the deferred `recover()` caught a
panic, and how the function ended. -/
structure TimeoutResult where
  srv : graceServer
  releases : Nat
  recovered : Bool
  done : Completion
  deriving DecidableEq, Repr

/-- The loop `for { if srv.state == STATE_TERMINATE { break }; srv.wg.Done() }`
of `serverTimeout`, run on its own (no other task writes `srv.state` or the
counter meanwhile), for at most `fuel` turns; `none` when the turns do not
suffice. `srv.wg.Done()` on a zero counter panics and leaves the loop
(`done := .panicked`); `releases` counts the calls that succeeded. -/
def hammerLoop : Nat → graceServer → Option TimeoutResult
  | 0, _ => none
  | fuel + 1, srv =>
    if srv.state = STATE_TERMINATE then
      some { srv := srv, releases := 0, recovered := false, done := .returned }
    else if srv.wg = 0 then
      some { srv := srv, releases := 0, recovered := false, done := .panicked }
    else
      (hammerLoop fuel { srv with wg := srv.wg - 1 }).map
        fun r => { r with releases := r.releases + 1 }

/-- `graceServer.serverTimeout`, from the moment the task runs to its return.
`time.Sleep(d)` passes time only and is not represented. A panic of the loop
is caught by the deferred `recover()`, after which the function returns
normally. -/
def graceServer.serverTimeout (fuel : Nat) (srv : graceServer) : Option TimeoutResult :=
  if srv.state ≠ STATE_SHUTTING_DOWN then
    some { srv := srv, releases := 0, recovered := false, done := .returned }
  else
    (hammerLoop fuel srv).map fun r =>
      if r.done = .panicked then { r with recovered := true, done := .returned } else r

/-- The discipline of the kill of the parent in a run `r` of `ListenAndServe`
or `ListenAndServeTLS` of a server with flag `isChild`, where `gl` is the
result of the call of `getListener` in that run: a kill is attempted only in a
child, only when `getListener` gave a listener, and after all events of
`getListener`; no kill when `getListener` failed; a child enters `Serve` only
after a kill that returned no error; no kill outside a child. -/
def KillAfterListener (os : OS) (isChild : Bool) (gl : ListenResult) (r : StartResult) : Prop :=
  (Event.killParent ∈ r.events →
    isChild = true ∧ (∃ l, gl.res = .ok l) ∧ Event.killParent ∉ gl.events ∧
    ∃ rest, r.events = .goHandleSignals :: gl.events ++ .killParent :: rest) ∧
  ((∃ e, gl.res = .error e) → Event.killParent ∉ r.events) ∧
  (isChild = true → r.out = .serving → os.kill = none ∧ Event.killParent ∈ r.events) ∧
  (isChild = false → Event.killParent ∉ r.events)

end Grace

/-! # The memory session provider (`session/sess_mem.go`) -/

namespace Session

/-- The part of a `MemSessionStore` the provider works with: the session id and
`timeAccessed.Unix()`, in seconds. The map `value` of the session has no part
in the provider's bookkeeping and is not represented. -/
structure MemSessionStore where
  sid : String
  timeAccessed : Int
  deriving DecidableEq, Repr

/-- The struct `MemProvider`. The elements of the `container/list` are
allocated in `elems`, an element being known by its index there; `list` holds
the elements that are in the list, front first; `sessions` is the map from
session id to element, as the list of its entries (one per key). -/
structure MemProvider where
  elems : List MemSessionStore
  list : List Nat
  sessions : List (String × Nat)
  maxlifetime : Int
  deriving DecidableEq, Repr

/-- The map assignment `m[k] = v`. -/
def mapSet (m : List (String × Nat)) (k : String) (v : Nat) : List (String × Nat) :=
  (k, v) :: m.filter fun kv => kv.1 ≠ k

/-- The map deletion `delete(m, k)`. -/
def mapDelete (m : List (String × Nat)) (k : String) : List (String × Nat) :=
  m.filter fun kv => kv.1 ≠ k

/-- The provider as `mempder` is made: empty list, empty map. -/
def MemProvider.new (maxlifetime : Int) : MemProvider :=
  { elems := [], list := [], sessions := [], maxlifetime := maxlifetime }

/-- The branch shared by `SessionRead` and `SessionRegenerate` when the id is
not known: a new store with `timeAccessed: time.Now()` is put at the back of
the list (`pder.list.PushBack(newsess)`) and entered in the map. -/
def MemProvider.pushNew (pder : MemProvider) (sid : String) (now : Int) : MemProvider :=
  { pder with
    elems := pder.elems ++ [{ sid := sid, timeAccessed := now }]
    list := pder.list ++ [pder.elems.length]
    sessions := mapSet pder.sessions sid pder.elems.length }

/-- `MemProvider.SessionUpdate` at clock value `now`: the store of a known id
gets `timeAccessed = time.Now()` and its element is moved to the front of the
list (`MoveToFront` does nothing for an element that is not in the list). -/
def MemProvider.SessionUpdate (pder : MemProvider) (sid : String) (now : Int) : MemProvider :=
  match pder.sessions.lookup sid with
  | some e =>
    { pder with
      elems := pder.elems.modify (fun st => { st with timeAccessed := now }) e
      list := if e ∈ pder.list then e :: pder.list.erase e else pder.list }
  | none => pder

/-- `MemProvider.SessionRead` at clock value `now`. For a known id the
provider is left as it is and a task `go pder.SessionUpdate(sid)` is started,
which is a later `SessionUpdate` step; the second component says so. -/
def MemProvider.SessionRead (pder : MemProvider) (sid : String) (now : Int) :
    MemProvider × Bool :=
  match pder.sessions.lookup sid with
  | some _ => (pder, true)
  | none => (pder.pushNew sid now, false)

/-- `MemProvider.SessionRegenerate` at clock value `now`; the second component
says that a task `go pder.SessionUpdate(oldsid)` is started. -/
def MemProvider.SessionRegenerate (pder : MemProvider) (oldsid sid : String) (now : Int) :
    MemProvider × Bool :=
  match pder.sessions.lookup oldsid with
  | some e =>
    ({ pder with
       elems := pder.elems.modify (fun st => { st with sid := sid }) e
       sessions := mapDelete (mapSet pder.sessions sid e) oldsid }, true)
  | none => (pder.pushNew sid now, false)

/-- `MemProvider.SessionDestroy`. -/
def MemProvider.SessionDestroy (pder : MemProvider) (sid : String) : MemProvider :=
  match pder.sessions.lookup sid with
  | some e => { pder with sessions := mapDelete pder.sessions sid, list := pder.list.erase e }
  | none => pder

/-- The loop of `SessionGC` at clock value `now`, for at most `fuel` turns
(`none` when they do not suffice): the element at the back of the list is
looked at; when its store has `timeAccessed.Unix() + maxlifetime < now` the
element is removed from the list and the id of its store from the map, and the
loop goes on; otherwise the loop ends. An element without a store, which no
operation produces, would make `element.Value.(*MemSessionStore)` panic; this
is `none` as well. -/
def gcLoop (now : Int) : Nat → MemProvider → Option MemProvider
  | 0, _ => none
  | fuel + 1, pder =>
    match pder.list.getLast? with
    | none => some pder
    | some e =>
      match pder.elems[e]? with
      | none => none
      | some st =>
        if st.timeAccessed + pder.maxlifetime < now then
          gcLoop now fuel
            { pder with list := pder.list.erase e, sessions := mapDelete pder.sessions st.sid }
        else some pder

/-- `MemProvider.SessionGC` at clock value `now`; every turn of the loop but
the last removes an element, so one turn more than the length of the list
suffices. -/
def MemProvider.SessionGC (pder : MemProvider) (now : Int) : Option MemProvider :=
  gcLoop now (pder.list.length + 1) pder

/-- The operations of the provider that change it, each at a clock value. -/
inductive Op
  | read (sid : String) (now : Int)
  | regenerate (oldsid sid : String) (now : Int)
  | update (sid : String) (now : Int)
  | destroy (sid : String)
  deriving DecidableEq, Repr

/-- The provider after an operation. -/
def Op.apply : Op → MemProvider → MemProvider
  | .read sid now, pder => (pder.SessionRead sid now).1
  | .regenerate oldsid sid now, pder => (pder.SessionRegenerate oldsid sid now).1
  | .update sid now, pder => pder.SessionUpdate sid now
  | .destroy sid, pder => pder.SessionDestroy sid

/-- The stores whose elements are in the list, front first. -/
def MemProvider.listed (pder : MemProvider) : List MemSessionStore :=
  pder.list.filterMap fun e => pder.elems[e]?

/-- The stores the map leads to. -/
def MemProvider.mapped (pder : MemProvider) : List MemSessionStore :=
  pder.sessions.filterMap fun kv => pder.elems[kv.2]?

/-- The store `st` is expired at clock value `now`. -/
def expired (maxlifetime now : Int) (st : MemSessionStore) : Bool :=
  st.timeAccessed + maxlifetime < now

/-- Session `"A"` is created at time 0 and session `"B"` at time 10, with
`maxlifetime` 100; neither is updated. -/
def twoSessions : MemProvider :=
  [Op.read "A" 0, Op.read "B" 10].foldl (fun pder op => op.apply pder) (MemProvider.new 100)

end Session

namespace Grace

/-! ## Example data -/

/-- A listening socket whose `Close()` succeeds. -/
def demoNet (sock : Nat) : NetListener :=
  { sock := sock, closeErr := none }

/-- A server on `addr` that serves on a fresh shim over socket `sock`. -/
def demoServer (addr : String) (sock : Nat) : graceServer :=
  { Addr := addr, Network := "tcp", isChild := false, state := STATE_RUNNING, wg := 0
    GraceListener := some (.shim (newGraceListener (demoNet sock)))
    tlsInnerListener := none, SignalHooks := [] }

/-- An operating system on which every call succeeds; descriptor `fd` is the
socket `fd`, and a fresh bind gives socket `100`. -/
def demoOS : OS :=
  { fileListener := fun fd => .ok (demoNet fd)
    listen := fun _ _ => .ok (demoNet 100)
    loadX509KeyPair := fun _ _ => none
    findParent := none
    kill := none
    cmdStart := fun _ _ _ => none }

/-- An operating system on which no listener can be had: the bind fails and
no descriptor is a socket. -/
def failingOS : OS :=
  { demoOS with
    fileListener := fun _ => .error "bad file descriptor"
    listen := fun _ _ => .error "address already in use" }

/-- The registry of two plain servers on `":8080"` (socket 7) and `":8443"`
(socket 8), registered in this order, with `os.Args` of a process that is
itself a forked child. -/
def demoGlobals : Globals :=
  { runningServersForked := false
    runningServers := [demoServer ":8080" 7, demoServer ":8443" 8]
    socketPtrOffsetMap := [(":8080", 0), (":8443", 1)]
    DefaultTimeout := -1
    osArgs := ["/bin/app", "-v", "-graceful", "-socketorder=:8080,:8443"] }

/-- The process of `demoGlobals` as seen from its first server. -/
def demoProc : Proc :=
  { g := demoGlobals, srv := demoServer ":8080" 7, events := [], done := .returned }

/-- The server of a forked child on `addr`, before it has a listener. -/
def demoChild (addr : String) : graceServer :=
  { Addr := addr, Network := "tcp", isChild := true, state := STATE_RUNNING, wg := 0
    GraceListener := none, tlsInnerListener := none, SignalHooks := [] }

/-- A run without drain timeout: two connections are accepted, a termination
signal closes the listener, the accept loop ends, both connections are closed,
and only then `Serve` finishes. -/
def demoLabels : List Label :=
  [.serveStart, .accept, .accept, .signal .SIGINT, .serveLoopEnd, .connClose, .connClose,
   .serveFinish]

/-- The state at the end of the run `demoLabels`. -/
def demoDrained : Sys :=
  (Sys.run demoOS demoLabels (Sys.start demoGlobals (demoServer ":8080" 7))).getD
    (Sys.start demoGlobals (demoServer ":8080" 7))

/-- An operating system on which the replacement process cannot be launched:
`cmd.Start()` fails. -/
def noLaunchOS : OS :=
  { demoOS with cmdStart := fun _ _ _ => some "fork/exec /bin/app: no such file or directory" }

/-! ## Theorems -/

/-! ### The listener shim -/

theorem close_of_stopped (el : graceListener) (h : el.stopped = true) :
    el.Close = { err := some EINVAL, el := el, events := [], done := .returned } := by
  simp [graceListener.Close, h]

theorem close_returned_stopped (el : graceListener) (h : el.Close.done = .returned) :
    el.Close.el.stopped = true := by
  unfold graceListener.Close at h ⊢
  by_cases hs : el.stopped = true
  · simp [hs]
  · by_cases ht : el.taskWaiting = true
    · simp [hs, ht]
    · simp [hs, ht] at h

theorem closeAgain_of_stopped (el : graceListener) (h : el.stopped = true) (n : Nat) :
    closeAgain n el = (List.replicate n (some EINVAL), [], el, true) := by
  induction n with
  | zero => rfl
  | succ k ih => simp [closeAgain, close_of_stopped el h, ih, List.replicate_succ]

/-! ### `shutdown` -/

theorem shutdown_not_running (d : Int) (srv : graceServer) (h : srv.state ≠ STATE_RUNNING) :
    srv.shutdown d = { srv := srv, events := [], done := .returned } := by
  simp [graceServer.shutdown, h]

theorem shutdown_running_state (d : Int) (srv : graceServer) (h : srv.state = STATE_RUNNING) :
    (srv.shutdown d).srv.state = STATE_SHUTTING_DOWN := by
  unfold graceServer.shutdown
  simp only [h, ne_eq, not_true_eq_false, if_false]
  split <;> rfl

theorem shutdown_state_ne_running (d : Int) (srv : graceServer) :
    (srv.shutdown d).srv.state ≠ STATE_RUNNING := by
  by_cases h : srv.state = STATE_RUNNING
  · rw [shutdown_running_state d srv h]; decide
  · rw [shutdown_not_running d srv h]; exact h

theorem handleSignal_term_srv (os : OS) (sig : Signal) (p : Proc) (hp : p.done = .returned)
    (hs : sig = .SIGINT ∨ sig = .SIGTERM) :
    (handleSignal os sig p).srv = (p.srv.shutdown p.g.DefaultTimeout).srv := by
  rcases hs with rfl | rfl <;>
    (simp only [handleSignal, hp, ne_eq, not_true_eq_false, if_false]; split <;> rfl)

theorem handleSignal_term_again (os : OS) (sig sig2 : Signal) (p : Proc)
    (hs : sig = .SIGINT ∨ sig = .SIGTERM) (hs2 : sig2 = .SIGINT ∨ sig2 = .SIGTERM) :
    handleSignal os sig2 (handleSignal os sig p)
      = { handleSignal os sig p with
          events := (handleSignal os sig p).events ++
            (if (handleSignal os sig p).done = .returned then
              (handleSignal os sig p).srv.signalHooks PRE_SIGNAL sig2 ++
                (handleSignal os sig p).srv.signalHooks POST_SIGNAL sig2
            else []) } := by
  by_cases hq : (handleSignal os sig p).done = .returned
  · have hp : p.done = .returned := by
      by_contra hp
      have : handleSignal os sig p = p := by simp [handleSignal, hp]
      rw [this] at hq
      exact hp hq
    have hstate : (handleSignal os sig p).srv.state ≠ STATE_RUNNING := by
      rw [handleSignal_term_srv os sig p hp hs]
      exact shutdown_state_ne_running _ _
    generalize handleSignal os sig p = q at hq hstate
    rcases hs2 with rfl | rfl <;>
      simp [handleSignal, hq, shutdown_not_running _ _ hstate]
  · generalize handleSignal os sig p = q at hq
    simp [handleSignal, hq]

/-- C1: `shutdown` acts only in state `STATE_RUNNING`. In every other state it
returns the server unchanged with no event at all (no `serverTimeout` task, no
`Close` on the listener); in state `STATE_RUNNING` it sets the state to
`STATE_SHUTTING_DOWN`. A second call of `shutdown` right after a first one
changes nothing and performs no event. `handleSignals` runs `shutdown` for
both `SIGINT` and `SIGTERM`, and a second termination signal handled right
after a first one leaves the process as it is, the calls of the hooks
registered for the signal apart. -/
theorem shutdown_acts_only_when_running (os : OS) (d : Int) (srv : graceServer) :
    (srv.state ≠ STATE_RUNNING →
      srv.shutdown d = { srv := srv, events := [], done := .returned }) ∧
    (srv.state = STATE_RUNNING → (srv.shutdown d).srv.state = STATE_SHUTTING_DOWN) ∧
    (srv.shutdown d).srv.shutdown d
      = { srv := (srv.shutdown d).srv, events := [], done := .returned } ∧
    (∀ (p : Proc) (sig : Signal), p.done = .returned → sig = .SIGINT ∨ sig = .SIGTERM →
      (handleSignal os sig p).srv = (p.srv.shutdown p.g.DefaultTimeout).srv) ∧
    (∀ (p : Proc) (sig sig2 : Signal), sig = .SIGINT ∨ sig = .SIGTERM →
      sig2 = .SIGINT ∨ sig2 = .SIGTERM →
      handleSignal os sig2 (handleSignal os sig p)
        = { handleSignal os sig p with
            events := (handleSignal os sig p).events ++
              (if (handleSignal os sig p).done = .returned then
                (handleSignal os sig p).srv.signalHooks PRE_SIGNAL sig2 ++
                  (handleSignal os sig p).srv.signalHooks POST_SIGNAL sig2
              else []) }) :=
  ⟨shutdown_not_running d srv, shutdown_running_state d srv,
    shutdown_not_running d _ (shutdown_state_ne_running d srv),
    fun p sig hp hs => handleSignal_term_srv os sig p hp hs,
    fun p sig sig2 hs hs2 => handleSignal_term_again os sig sig2 p hs hs2⟩

theorem shutdown_acts_only_when_running_witness :
    ((demoServer ":8080" 7).shutdown 0).srv.state = STATE_SHUTTING_DOWN ∧
    ((demoServer ":8080" 7).shutdown 0).events
      = [.goServerTimeout 0, .stopSend 7, .netClose 7] ∧
    ((demoServer ":8080" 7).shutdown 0).srv.shutdown 0
      = { srv := ((demoServer ":8080" 7).shutdown 0).srv, events := [], done := .returned } ∧
    ({ demoServer ":8080" 7 with state := STATE_TERMINATE }).shutdown 0
      = { srv := { demoServer ":8080" 7 with state := STATE_TERMINATE }
          events := [], done := .returned } :=
  ⟨(shutdown_acts_only_when_running demoOS 0 (demoServer ":8080" 7)).2.1 (by decide),
   by decide,
   (shutdown_acts_only_when_running demoOS 0 (demoServer ":8080" 7)).2.2.1,
   (shutdown_acts_only_when_running demoOS 0
     { demoServer ":8080" 7 with state := STATE_TERMINATE }).1 (by decide)⟩

/-- C2: once a call of `graceListener.Close` has returned, the listener is
marked `stopped`, and each of any number of later calls returns
`syscall.EINVAL`, performs no event (no send on `stop`, no `Close` of the
underlying listener) and returns (it does not block). The first call on a
listener fresh from `newGraceListener` does return, with the result of the
underlying `Close`. -/
theorem close_after_close_is_einval (el : graceListener) (h : el.Close.done = .returned) :
    el.Close.el.stopped = true ∧
    (∀ n, closeAgain n el.Close.el = (List.replicate n (some EINVAL), [], el.Close.el, true)) ∧
    (∀ l : NetListener, (newGraceListener l).Close.done = .returned ∧
      (newGraceListener l).Close.err = l.closeErr ∧
      (newGraceListener l).Close.events = [.stopSend l.sock, .netClose l.sock]) := by
  refine ⟨close_returned_stopped el h,
    closeAgain_of_stopped _ (close_returned_stopped el h), ?_⟩
  intro l
  simp [newGraceListener, graceListener.Close]

theorem close_after_close_is_einval_witness :
    (newGraceListener (demoNet 7)).Close.el.stopped = true ∧
    closeAgain 2 (newGraceListener (demoNet 7)).Close.el
      = ([some EINVAL, some EINVAL], [], (newGraceListener (demoNet 7)).Close.el, true) :=
  ⟨(close_after_close_is_einval (newGraceListener (demoNet 7)) (by decide)).1,
   (close_after_close_is_einval (newGraceListener (demoNet 7)) (by decide)).2.1 2⟩

/-! ### The fork guard -/

theorem fork_of_forked (os : OS) (g : Globals) (h : g.runningServersForked = true) :
    fork os g = { g := g, err := none, events := [], done := .returned } := by
  simp [fork, h]

theorem fork_sets_guard (os : OS) (g : Globals) : (fork os g).g.runningServersForked = true := by
  unfold fork
  by_cases h : g.runningServersForked = true
  · simp [h]
  · simp only [h]
    repeat' split
    all_goals first | rfl | simp_all

theorem fork_launches_le_one (os : OS) (g : Globals) : launches (fork os g).events ≤ 1 := by
  unfold fork
  dsimp only
  repeat' split
  all_goals simp [launches]

theorem fork_keeps_rest (os : OS) (g : Globals) :
    (fork os g).g.DefaultTimeout = g.DefaultTimeout := by
  unfold fork
  dsimp only
  repeat' split
  all_goals rfl

theorem forkCalls_of_forked (os : OS) (n : Nat) (g : Globals)
    (h : g.runningServersForked = true) :
    forkCalls os n g
      = List.replicate n { g := g, err := none, events := [], done := .returned } := by
  induction n with
  | zero => rfl
  | succ k ih => simp [forkCalls, fork_of_forked os g h, ih, List.replicate_succ]

theorem launches_append (xs ys : List Event) :
    launches (xs ++ ys) = launches xs + launches ys := by
  simp [launches]

theorem launches_signalHooks (srv : graceServer) (ppFlag : Nat) (sig : Signal) :
    launches (srv.signalHooks ppFlag sig) = 0 := by
  unfold graceServer.signalHooks
  split
  · rfl
  · simp [launches, List.filter_map]

theorem launches_close (el : graceListener) : launches el.Close.events = 0 := by
  unfold graceListener.Close
  split
  · rfl
  · split <;> rfl

theorem launches_shutdown (d : Int) (srv : graceServer) :
    launches (srv.shutdown d).events = 0 := by
  have h0 : launches (if d ≥ 0 then [Event.goServerTimeout d] else []) = 0 := by
    split <;> rfl
  unfold graceServer.shutdown
  dsimp only
  split
  · rfl
  · split
    · exact h0
    · simp only [launches_append, h0, launches_close]
    · simp only [launches_append, h0, launches_close]

theorem handleSignal_guard (os : OS) (sig : Signal) (p : Proc)
    (h : p.g.runningServersForked = true) :
    (handleSignal os sig p).g.runningServersForked = true ∧
    launches (handleSignal os sig p).events = launches p.events := by
  unfold handleSignal
  split
  · exact ⟨h, rfl⟩
  · cases sig with
    | SIGHUP =>
      simp only [fork_of_forked os p.g h, if_true, launches_append, launches_signalHooks]
      exact ⟨h, by simp [launches]⟩
    | SIGINT =>
      simp only
      split <;> simp [launches_append, launches_signalHooks, launches_shutdown, h]
    | SIGTERM =>
      simp only
      split <;> simp [launches_append, launches_signalHooks, launches_shutdown, h]
    | other n =>
      simp [launches_append, launches_signalHooks, h]

theorem handleSignal_not_hup (os : OS) (sig : Signal) (p : Proc) (hs : sig ≠ .SIGHUP) :
    (handleSignal os sig p).g = p.g ∧
    launches (handleSignal os sig p).events = launches p.events := by
  unfold handleSignal
  split
  · exact ⟨rfl, rfl⟩
  · cases sig with
    | SIGHUP => exact absurd rfl hs
    | SIGINT =>
      simp only
      split <;> simp [launches_append, launches_signalHooks, launches_shutdown]
    | SIGTERM =>
      simp only
      split <;> simp [launches_append, launches_signalHooks, launches_shutdown]
    | other n =>
      simp [launches_append, launches_signalHooks]

theorem handleSignal_hup (os : OS) (p : Proc) :
    launches (handleSignal os .SIGHUP p).events ≤ launches p.events + 1 := by
  unfold handleSignal
  split
  · exact Nat.le_succ _
  · have h := fork_launches_le_one os p.g
    simp only
    split <;> simp [launches_append, launches_signalHooks] <;> omega

theorem handleSignal_guardInv (os : OS) (sig : Signal) (p : Proc) (h : GuardInv p) :
    GuardInv (handleSignal os sig p) := by
  by_cases hg : p.g.runningServersForked = true
  · obtain ⟨h1, h2⟩ := handleSignal_guard os sig p hg
    exact ⟨fun hf => by simp [h1] at hf, by rw [h2]; exact h.2⟩
  · have hg0 : p.g.runningServersForked = false := by simpa using hg
    have hl := h.1 hg0
    by_cases hs : sig = .SIGHUP
    · subst hs
      have := handleSignal_hup os p
      refine ⟨fun hf => ?_, by omega⟩
      by_cases hd : p.done = .returned
      · have : (handleSignal os .SIGHUP p).g.runningServersForked = true := by
          simp only [handleSignal, hd, ne_eq, not_true_eq_false, if_false]
          split <;> exact fork_sets_guard os p.g
        simp [this] at hf
      · simp only [handleSignal, hd, ne_eq, not_false_eq_true, if_true]
        exact hl
    · obtain ⟨h1, h2⟩ := handleSignal_not_hup os sig p hs
      exact ⟨fun _ => by rw [h2]; exact hl, by rw [h2]; exact h.2⟩

theorem handleSignals_guardInv (os : OS) (sigs : List Signal) (p : Proc) (h : GuardInv p) :
    GuardInv (handleSignals os sigs p) := by
  induction sigs generalizing p with
  | nil => exact h
  | cons sig rest ih => exact ih _ (handleSignal_guardInv os sig p h)

theorem handleSignals_guard (os : OS) (sigs : List Signal) (p : Proc)
    (h : p.g.runningServersForked = true) :
    (handleSignals os sigs p).g.runningServersForked = true ∧
    launches (handleSignals os sigs p).events = launches p.events := by
  induction sigs generalizing p with
  | nil => exact ⟨h, rfl⟩
  | cons sig rest ih =>
    obtain ⟨h1, h2⟩ := handleSignal_guard os sig p h
    obtain ⟨h3, h4⟩ := ih (handleSignal os sig p) h1
    exact ⟨h3, h4.trans h2⟩

theorem step_guard (os : OS) (l : Label) (s s' : Sys)
    (hg : s.p.g.runningServersForked = true) (hstep : s.step os l = some s') :
    s'.p.g.runningServersForked = true := by
  unfold Sys.step at hstep
  split at hstep
  · simp at hstep
  · cases l with
    | signal sig =>
      simp only [Option.some.injEq] at hstep
      subst hstep
      exact (handleSignal_guard os sig s.p hg).1
    | serveStart | accept | serveLoopEnd | connClose | serveFinish =>
      simp only at hstep
      split at hstep
      · simp only [Option.some.injEq] at hstep
        subst hstep
        exact hg
      · simp at hstep
    | timerEnter | timerTurn =>
      simp only at hstep
      repeat' split at hstep
      all_goals first
        | (simp at hstep; done)
        | (simp only [Option.some.injEq] at hstep; subst hstep; exact hg)

theorem run_guard (os : OS) (ls : List Label) (s s' : Sys)
    (hg : s.p.g.runningServersForked = true) (hrun : Sys.run os ls s = some s') :
    s'.p.g.runningServersForked = true := by
  induction ls generalizing s with
  | nil =>
    simp only [Sys.run, Option.some.injEq] at hrun
    subst hrun
    exact hg
  | cons l rest ih =>
    simp only [Sys.run] at hrun
    cases hs : s.step os l with
    | none => simp [hs] at hrun
    | some t =>
      rw [hs] at hrun
      exact ih t (step_guard os l s t hg hs) hrun

/-- C3: at most one replacement process is launched per process. A call of
`fork` that finds `runningServersForked` set returns nil at once, with the
package variables unchanged and no event (nothing launched); every call of
`fork` leaves the guard set; so in any sequence of calls of `fork` every call
after the first is such a call. Over any sequence of signals handled by
`handleSignals`, the guard, once set, stays set and nothing more is
launched, and a process that starts with the guard unset and nothing launched
launches at most one process. -/
theorem fork_at_most_once (os : OS) :
    (∀ g : Globals, g.runningServersForked = true →
      fork os g = { g := g, err := none, events := [], done := .returned }) ∧
    (∀ g : Globals, (fork os g).g.runningServersForked = true) ∧
    (∀ (n : Nat) (g : Globals), ∀ r ∈ (forkCalls os (n + 1) g).tail,
      r = { g := (fork os g).g, err := none, events := [], done := .returned }) ∧
    (∀ (sigs : List Signal) (p : Proc), p.g.runningServersForked = true →
      (handleSignals os sigs p).g.runningServersForked = true ∧
      launches (handleSignals os sigs p).events = launches p.events) ∧
    (∀ (sigs : List Signal) (p : Proc), launches p.events = 0 →
      launches (handleSignals os sigs p).events ≤ 1) ∧
    (∀ (ls : List Label) (s s' : Sys), Sys.run os ls s = some s' →
      s.p.g.runningServersForked = true → s'.p.g.runningServersForked = true) := by
  refine ⟨fork_of_forked os, fork_sets_guard os, ?_, handleSignals_guard os, ?_,
    fun ls s s' hrun hg => run_guard os ls s s' hg hrun⟩
  · intro n g r hr
    by_cases hd : (fork os g).done = .returned
    · simp only [forkCalls, hd, if_true, List.tail_cons] at hr
      rw [forkCalls_of_forked os n _ (fork_sets_guard os g)] at hr
      exact List.eq_of_mem_replicate hr
    · simp [forkCalls, hd] at hr
  · intro sigs p hp
    exact (handleSignals_guardInv os sigs p ⟨fun _ => hp, by omega⟩).2

theorem fork_at_most_once_witness :
    fork demoOS (fork demoOS demoGlobals).g
      = { g := (fork demoOS demoGlobals).g, err := none, events := [], done := .returned } ∧
    launches (fork demoOS demoGlobals).events = 1 ∧
    launches (handleSignals demoOS [.SIGHUP, .SIGHUP, .SIGHUP] demoProc).events ≤ 1 :=
  ⟨(fork_at_most_once demoOS).1 (fork demoOS demoGlobals).g (by decide),
   by decide,
   (fork_at_most_once demoOS).2.2.2.2.1 [.SIGHUP, .SIGHUP, .SIGHUP] demoProc (by decide)⟩

/-! ### The lists built by `fork` -/

theorem forkLoop_spec (m : OffsetMap) (n : Nat) (rest : List graceServer) :
    ∀ (files : List (Option File)) (orderArgs : List String),
      files.length = n → orderArgs.length = n →
      (∀ s ∈ rest, (exportedFile s).isSome = true ∧ offsetOf m s.Addr < n) →
      (rest.map fun s => offsetOf m s.Addr).Nodup →
      ∃ res, forkLoop m rest (files, orderArgs) = some res ∧
        res.1.length = n ∧ res.2.length = n ∧
        (∀ s ∈ rest, res.1[offsetOf m s.Addr]? = some (exportedFile s) ∧
          res.2[offsetOf m s.Addr]? = some s.Addr) ∧
        (∀ i, (∀ s ∈ rest, offsetOf m s.Addr ≠ i) →
          res.1[i]? = files[i]? ∧ res.2[i]? = orderArgs[i]?) := by
  induction rest with
  | nil =>
    intro files orderArgs hf ho _ _
    exact ⟨(files, orderArgs), rfl, hf, ho, by simp, fun i _ => ⟨rfl, rfl⟩⟩
  | cons s tl ih =>
    intro files orderArgs hf ho hall hnd
    obtain ⟨hlive, hlt⟩ := hall s (List.mem_cons_self _ _)
    obtain ⟨f, hfile⟩ := Option.isSome_iff_exists.mp hlive
    rw [List.map_cons, List.nodup_cons] at hnd
    obtain ⟨res, hres, hl1, hl2, hin, hout⟩ :=
      ih (files.set (offsetOf m s.Addr) (some f)) (orderArgs.set (offsetOf m s.Addr) s.Addr)
        (by simp [hf]) (by simp [ho])
        (fun t ht => hall t (List.mem_cons_of_mem _ ht)) hnd.2
    refine ⟨res, ?_, hl1, hl2, ?_, ?_⟩
    · simp only [forkLoop, hfile, hf, ho, hlt, and_self, if_true]
      exact hres
    · intro t ht
      rcases List.mem_cons.mp ht with rfl | ht
      · have hfresh : ∀ u ∈ tl, offsetOf m u.Addr ≠ offsetOf m t.Addr := by
          intro u hu heq
          exact hnd.1 (List.mem_map.mpr ⟨u, hu, heq⟩)
        obtain ⟨h1, h2⟩ := hout _ hfresh
        rw [h1, h2, hfile]
        constructor
        · exact List.getElem?_set_self (by rw [hf]; exact hlt)
        · exact List.getElem?_set_self (by rw [ho]; exact hlt)
      · exact hin t ht
    · intro i hi
      obtain ⟨h1, h2⟩ := hout i (fun t ht => hi t (List.mem_cons_of_mem _ ht))
      have hne : offsetOf m s.Addr ≠ i := hi s (List.mem_cons_self _ _)
      rw [h1, h2]
      exact ⟨List.getElem?_set_ne hne, List.getElem?_set_ne hne⟩

theorem offsets_cover (offs : List Nat) (hnd : offs.Nodup) (hlt : ∀ k ∈ offs, k < offs.length)
    (i : Nat) (hi : i < offs.length) : i ∈ offs := by
  have hsub : offs ⊆ List.range offs.length := fun k hk => List.mem_range.mpr (hlt k hk)
  have hperm : offs.Perm (List.range offs.length) :=
    (hnd.subperm hsub).perm_of_length_le (by simp)
  exact hperm.mem_iff.mpr (List.mem_range.mpr hi)

/-- C4: the ordering list of `fork` matches its descriptor list. For a registry
of `n` servers that all hold a listener, with pairwise distinct addresses that
the offset map sends one-to-one into `0..n-1`, the loop of `fork` completes
with two lists of length `n`, and every position `i < n` is the offset of one
registered server, whose address is at position `i` of `orderArgs` and whose
exported descriptor is at position `i` of `files`. The ordering argument is
`"-socketorder="` followed by `orderArgs` joined by commas. -/
theorem fork_lists_follow_offsets (m : OffsetMap) (servers : List graceServer)
    (hlive : ∀ s ∈ servers, (exportedFile s).isSome = true)
    (hdistinct : (servers.map fun s => s.Addr).Nodup)
    (hrange : ∀ s ∈ servers, offsetOf m s.Addr < servers.length)
    (hinj : ∀ s ∈ servers, ∀ t ∈ servers,
      offsetOf m s.Addr = offsetOf m t.Addr → s.Addr = t.Addr) :
    ∃ files orderArgs, forkLists m servers = some (files, orderArgs) ∧
      files.length = servers.length ∧ orderArgs.length = servers.length ∧
      (∀ i, i < servers.length → ∃ s ∈ servers, offsetOf m s.Addr = i ∧
        orderArgs[i]? = some s.Addr ∧ files[i]? = some (exportedFile s)) ∧
      (∀ (osArgs : List String), 1 < servers.length →
        (forkArgs osArgs servers.length orderArgs).getLast?
          = some ("-socketorder=" ++ ",".intercalate orderArgs)) := by
  have hnd : (servers.map fun s => offsetOf m s.Addr).Nodup := by
    have hmap : (servers.map fun s => offsetOf m s.Addr)
        = (servers.map fun s => s.Addr).map (offsetOf m) := by simp [List.map_map]
    rw [hmap]
    refine List.Nodup.map_on ?_ hdistinct
    intro a ha b hb hab
    obtain ⟨s, hs, rfl⟩ := List.mem_map.mp ha
    obtain ⟨t, ht, rfl⟩ := List.mem_map.mp hb
    exact hinj s hs t ht hab
  obtain ⟨res, hres, hl1, hl2, hin, _⟩ :=
    forkLoop_spec m servers.length servers (List.replicate servers.length none)
      (List.replicate servers.length "") (by simp) (by simp)
      (fun s hs => ⟨hlive s hs, hrange s hs⟩) hnd
  refine ⟨res.1, res.2, hres, hl1, hl2, ?_, ?_⟩
  · intro i hi
    have hmem : i ∈ servers.map fun s => offsetOf m s.Addr := by
      apply offsets_cover _ hnd
      · intro k hk
        obtain ⟨s, hs, rfl⟩ := List.mem_map.mp hk
        simpa using hrange s hs
      · simpa using hi
    obtain ⟨s, hs, rfl⟩ := List.mem_map.mp hmem
    exact ⟨s, hs, rfl, (hin s hs).2, (hin s hs).1⟩
  · intro osArgs hn
    simp [forkArgs, hn, socketOrderArg]

theorem fork_lists_follow_offsets_witness :
    forkLists demoGlobals.socketPtrOffsetMap demoGlobals.runningServers
      = some ([some { sock := 7 }, some { sock := 8 }], [":8080", ":8443"]) ∧
    forkArgs ["/bin/app"] 2 [":8080", ":8443"] = ["-graceful", "-socketorder=:8080,:8443"] ∧
    ∃ files orderArgs,
      forkLists demoGlobals.socketPtrOffsetMap demoGlobals.runningServers
        = some (files, orderArgs) ∧
      files.length = demoGlobals.runningServers.length ∧
      orderArgs.length = demoGlobals.runningServers.length ∧
      (∀ i, i < demoGlobals.runningServers.length →
        ∃ s ∈ demoGlobals.runningServers, offsetOf demoGlobals.socketPtrOffsetMap s.Addr = i ∧
          orderArgs[i]? = some s.Addr ∧ files[i]? = some (exportedFile s)) ∧
      (∀ (osArgs : List String), 1 < demoGlobals.runningServers.length →
        (forkArgs osArgs demoGlobals.runningServers.length orderArgs).getLast?
          = some ("-socketorder=" ++ ",".intercalate orderArgs)) :=
  ⟨by decide, by decide,
   fork_lists_follow_offsets demoGlobals.socketPtrOffsetMap demoGlobals.runningServers
     (by decide) (by decide) (by decide) (by decide)⟩

/-! ### The argument list built by `fork` -/

theorem copyArgs_eq (xs args : List String) :
    copyArgs xs args = args ++ xs.takeWhile fun a => decide (a ≠ "-graceful") := by
  induction xs generalizing args with
  | nil => simp [copyArgs]
  | cons a rest ih =>
    by_cases h : a = "-graceful"
    · simp [copyArgs, h]
    · simp [copyArgs, h, ih]

theorem socketOrderArg_ne_marker (orderArgs : List String) :
    socketOrderArg orderArgs ≠ "-graceful" := by
  intro h
  have h2 := congrArg String.data h
  rw [socketOrderArg, String.data_append] at h2
  have e1 : "-socketorder=".data
      = ['-', 's', 'o', 'c', 'k', 'e', 't', 'o', 'r', 'd', 'e', 'r', '='] := rfl
  have e2 : "-graceful".data = ['-', 'g', 'r', 'a', 'c', 'e', 'f', 'u', 'l'] := rfl
  rw [e1, e2] at h2
  simp at h2

theorem count_marker_takeWhile (xs : List String) :
    (xs.takeWhile fun a => decide (a ≠ "-graceful")).count "-graceful" = 0 := by
  rw [List.count_eq_zero]
  intro hmem
  have := List.mem_takeWhile_imp hmem
  simp at this

theorem forkArgs_eq (osArgs : List String) (n : Nat) (orderArgs : List String) :
    forkArgs osArgs n orderArgs
      = ((osArgs.drop 1).takeWhile fun a => decide (a ≠ "-graceful")) ++ ["-graceful"]
        ++ (if 1 < n then ["-socketorder=" ++ ",".intercalate orderArgs] else []) := by
  have hcopy : (if osArgs.length > 1 then copyArgs (osArgs.drop 1) [] else [])
      = (osArgs.drop 1).takeWhile fun a => decide (a ≠ "-graceful") := by
    by_cases hlen : osArgs.length > 1
    · simp [hlen, copyArgs_eq]
    · have hd : osArgs.drop 1 = [] := List.drop_eq_nil_of_le (by omega)
      simp [hlen, hd]
  unfold forkArgs
  simp only [hcopy]
  by_cases hn : 1 < n
  · simp [hn, socketOrderArg]
  · simp [hn]

/-- C5: the argument list `fork` builds is the arguments of `os.Args[1:]` that
come before the first `"-graceful"` (all of them when there is none), then one
`"-graceful"`, then the single argument `"-socketorder=" ++ join(orderArgs, ",")`
if and only if more than one server is registered. The marker `"-graceful"`
occurs in it exactly once, whatever `os.Args` holds. Every launch that `fork`
performs is made with this list, for the lists its loop has built. -/
theorem fork_args_shape (osArgs : List String) (n : Nat) (orderArgs : List String) :
    forkArgs osArgs n orderArgs
      = ((osArgs.drop 1).takeWhile fun a => decide (a ≠ "-graceful")) ++ ["-graceful"]
        ++ (if 1 < n then ["-socketorder=" ++ ",".intercalate orderArgs] else []) ∧
    (forkArgs osArgs n orderArgs).count "-graceful" = 1 ∧
    (∀ (os : OS) (g : Globals) (path : String) (args : List String) (files : List (Option File)),
      Event.cmdStart path args files ∈ (fork os g).events →
      ∃ order, forkLists g.socketPtrOffsetMap g.runningServers = some (files, order) ∧
        args = forkArgs g.osArgs g.runningServers.length order) := by
  refine ⟨forkArgs_eq osArgs n orderArgs, ?_, ?_⟩
  · rw [forkArgs_eq]
    have hne := socketOrderArg_ne_marker orderArgs
    rw [socketOrderArg] at hne
    rw [List.count_append, List.count_append, count_marker_takeWhile]
    by_cases hn : 1 < n
    · rw [if_pos hn, List.count_singleton, List.count_singleton]
      simp [hne]
    · rw [if_neg hn]
      simp
  · intro os g path args files hmem
    unfold fork at hmem
    dsimp only at hmem
    split at hmem
    · simp at hmem
    · split at hmem
      · simp at hmem
      · rename_i fs order hlists
        split at hmem
        · simp at hmem
        · split at hmem <;>
          · simp only [List.mem_singleton, Event.cmdStart.injEq] at hmem
            obtain ⟨_, rfl, rfl⟩ := hmem
            exact ⟨order, hlists, rfl⟩

theorem fork_args_shape_witness :
    forkArgs demoGlobals.osArgs 2 [":8080", ":8443"]
      = ["-v", "-graceful", "-socketorder=:8080,:8443"] ∧
    ∃ order, forkLists demoGlobals.socketPtrOffsetMap demoGlobals.runningServers
        = some ([some { sock := 7 }, some { sock := 8 }], order) ∧
      ["-v", "-graceful", "-socketorder=:8080,:8443"]
        = forkArgs demoGlobals.osArgs demoGlobals.runningServers.length order :=
  ⟨by decide,
   (fork_args_shape [] 0 []).2.2 demoOS demoGlobals "/bin/app"
     ["-v", "-graceful", "-socketorder=:8080,:8443"] [some { sock := 7 }, some { sock := 8 }]
     (by decide)⟩

/-! ### `getListener` -/

/-- C6: in a forked child `getListener` opens descriptor `3 + offset`, where
`offset` is the entry of `laddr` in the offset map, and descriptor `3` when the
map is empty; the listener is the one made from that descriptor. The sum is
computed in `uint`; offsets are positions in the ordering argument, for which
it does not wrap. In a process that is not a forked child no descriptor is
opened: the address is bound with `net.Listen(srv.Network, laddr)`. -/
theorem getListener_descriptor (os : OS) (m : OffsetMap) (srv : graceServer) (laddr : String) :
    (srv.isChild = true → m ≠ [] → 3 + offsetOf m laddr < 2 ^ 64 →
      (srv.getListener os m laddr).events = [.newFile (3 + offsetOf m laddr)] ∧
      ∀ l, os.fileListener (3 + offsetOf m laddr) = .ok l →
        (srv.getListener os m laddr).res = .ok l) ∧
    (srv.isChild = true → m = [] →
      (srv.getListener os m laddr).events = [.newFile 3] ∧
      ∀ l, os.fileListener 3 = .ok l → (srv.getListener os m laddr).res = .ok l) ∧
    (srv.isChild = false →
      (srv.getListener os m laddr).events = [.netListen srv.Network laddr] ∧
      ∀ l, os.listen srv.Network laddr = .ok l → (srv.getListener os m laddr).res = .ok l) := by
  refine ⟨?_, ?_, ?_⟩
  · intro hc hm hlt
    have hlen : m.length > 0 := List.length_pos.mpr hm
    have hfd : (3 + offsetOf m laddr) % 2 ^ 64 = 3 + offsetOf m laddr := Nat.mod_eq_of_lt hlt
    simp only [graceServer.getListener, hc, if_true, hlen, hfd]
    constructor
    · split <;> rfl
    · intro l hl
      simp [hl]
  · intro hc hm
    subst hm
    simp only [graceServer.getListener, hc, if_true, List.length_nil, gt_iff_lt, lt_self_iff_false,
      if_false, Nat.add_zero]
    constructor
    · split <;> rfl
    · intro l hl
      have h3 : 3 % 2 ^ 64 = 3 := by norm_num
      simp [h3, hl]
  · intro hc
    simp only [graceServer.getListener, hc, Bool.false_eq_true, if_false]
    constructor
    · split <;> rfl
    · intro l hl
      simp [hl]

theorem getListener_descriptor_witness :
    ((demoChild ":8443").getListener demoOS demoGlobals.socketPtrOffsetMap ":8443").events
      = [.newFile 4] ∧
    ((demoChild ":8443").getListener demoOS [] ":8443").events = [.newFile 3] ∧
    ((demoServer ":8443" 8).getListener demoOS demoGlobals.socketPtrOffsetMap ":8443").events
      = [.netListen "tcp" ":8443"] :=
  ⟨((getListener_descriptor demoOS demoGlobals.socketPtrOffsetMap (demoChild ":8443") ":8443").1
      (by decide) (by decide) (by decide)).1,
   ((getListener_descriptor demoOS [] (demoChild ":8443") ":8443").2.1 (by decide) rfl).1,
   ((getListener_descriptor demoOS demoGlobals.socketPtrOffsetMap (demoServer ":8443" 8)
      ":8443").2.2 (by decide)).1⟩

/-- C9, as stated, fails: in a forked child whose offset map has the entries
`":8080" ↦ 0` and `":8443" ↦ 1`, `getListener(":9090")` finds no entry, takes
the zero value of the map lookup as offset, opens descriptor `3` (the slot of
`":8080"`) and returns its listener without error. -/
theorem getListener_missing_entry_counterexample :
    demoGlobals.socketPtrOffsetMap ≠ [] ∧
    demoGlobals.socketPtrOffsetMap.lookup ":9090" = none ∧
    ((demoChild ":9090").getListener demoOS demoGlobals.socketPtrOffsetMap ":9090").events
      = [.newFile 3] ∧
    ((demoChild ":9090").getListener demoOS demoGlobals.socketPtrOffsetMap ":9090").res
      = .ok (demoNet 3) ∧
    ((demoChild ":8080").getListener demoOS demoGlobals.socketPtrOffsetMap ":8080").events
      = [.newFile 3] := by
  refine ⟨by decide, by decide, by decide, rfl, by decide⟩

/-- C9, amended: in a forked child whose offset map is non-empty but has no
entry for `laddr`, `getListener` uses offset `0`: it opens descriptor `3`, the
first inherited slot, and returns the listener made from it; it returns an
error only when descriptor `3` cannot be turned into a listener. -/
theorem getListener_missing_entry (os : OS) (m : OffsetMap) (srv : graceServer) (laddr : String)
    (hchild : srv.isChild = true) (hm : m ≠ []) (hmiss : m.lookup laddr = none) :
    (srv.getListener os m laddr).events = [.newFile 3] ∧
    (∀ l, os.fileListener 3 = .ok l → (srv.getListener os m laddr).res = .ok l) ∧
    (∀ e, os.fileListener 3 = .error e →
      (srv.getListener os m laddr).res = .error ("net.FileListener error: " ++ e)) := by
  have hoff : offsetOf m laddr = 0 := by simp [offsetOf, hmiss]
  have hlen : m.length > 0 := List.length_pos.mpr hm
  have h3 : (3 + 0) % 2 ^ 64 = 3 := by norm_num
  simp only [graceServer.getListener, hchild, if_true, hlen, hoff, h3]
  refine ⟨?_, ?_, ?_⟩
  · split <;> rfl
  · intro l hl
    simp [hl]
  · intro e he
    simp [he]

theorem getListener_missing_entry_witness :
    ((demoChild ":9090").getListener failingOS demoGlobals.socketPtrOffsetMap ":9090").events
      = [.newFile 3] ∧
    ((demoChild ":9090").getListener failingOS demoGlobals.socketPtrOffsetMap ":9090").res
      = .error ("net.FileListener error: " ++ "bad file descriptor") :=
  ⟨(getListener_missing_entry failingOS demoGlobals.socketPtrOffsetMap (demoChild ":9090")
      ":9090" (by decide) (by decide) (by decide)).1,
   (getListener_missing_entry failingOS demoGlobals.socketPtrOffsetMap (demoChild ":9090")
      ":9090" (by decide) (by decide) (by decide)).2.2 "bad file descriptor" rfl⟩

/-! ### `ListenAndServe` and `ListenAndServeTLS` -/

/-- C10, as stated, fails: on an operating system where the bind fails,
`ListenAndServe` and `ListenAndServeTLS` return the error of `getListener`
without entering `Serve`, but the `handleSignals` task has been started: it is
the first event of the run, before `net.Listen` is called. -/
theorem listenAndServe_failure_counterexample :
    ((demoServer ":8080" 7).getListener failingOS [] ":8080").res
      = .error "net.Listen error: address already in use" ∧
    (demoServer ":8080" 7).ListenAndServe failingOS []
      = { srv := demoServer ":8080" 7
          events := [.goHandleSignals, .netListen "tcp" ":8080"]
          out := .failed "net.Listen error: address already in use" } ∧
    (demoServer ":8080" 7).ListenAndServeTLS failingOS [] "cert.pem" "key.pem"
      = { srv := demoServer ":8080" 7
          events := [.goHandleSignals, .netListen "tcp" ":8080"]
          out := .failed "net.Listen error: address already in use" } := by
  refine ⟨rfl, by decide, by decide⟩

theorem getListener_no_serveEnter (os : OS) (m : OffsetMap) (srv : graceServer)
    (laddr : String) : Event.serveEnter ∉ (srv.getListener os m laddr).events := by
  unfold graceServer.getListener
  dsimp only
  repeat' split
  all_goals simp

/-- C10, amended: when `getListener` returns an error, `ListenAndServe` (and
`ListenAndServeTLS`, once the certificate pair has loaded) returns that error
with the server unchanged and without entering `Serve`; the `handleSignals`
task has been started before `getListener` was called, so it is the first
event of the run. -/
theorem listenAndServe_failure (os : OS) (m : OffsetMap) (srv : graceServer)
    (certFile keyFile : String) :
    (∀ e, (srv.getListener os m (if srv.Addr = "" then ":http" else srv.Addr)).res = .error e →
      srv.ListenAndServe os m
        = { srv := srv
            events := .goHandleSignals ::
              (srv.getListener os m (if srv.Addr = "" then ":http" else srv.Addr)).events
            out := .failed e } ∧
      Event.serveEnter ∉ (srv.ListenAndServe os m).events) ∧
    (∀ e, os.loadX509KeyPair certFile keyFile = none →
      (srv.getListener os m (if srv.Addr = "" then ":https" else srv.Addr)).res = .error e →
      srv.ListenAndServeTLS os m certFile keyFile
        = { srv := srv
            events := .goHandleSignals ::
              (srv.getListener os m (if srv.Addr = "" then ":https" else srv.Addr)).events
            out := .failed e } ∧
      Event.serveEnter ∉ (srv.ListenAndServeTLS os m certFile keyFile).events) := by
  constructor
  · intro e he
    have heq : srv.ListenAndServe os m
        = { srv := srv
            events := .goHandleSignals ::
              (srv.getListener os m (if srv.Addr = "" then ":http" else srv.Addr)).events
            out := .failed e } := by
      simp only [graceServer.ListenAndServe, he, List.singleton_append]
    refine ⟨heq, ?_⟩
    rw [heq]
    simp [getListener_no_serveEnter]
  · intro e hcert he
    have heq : srv.ListenAndServeTLS os m certFile keyFile
        = { srv := srv
            events := .goHandleSignals ::
              (srv.getListener os m (if srv.Addr = "" then ":https" else srv.Addr)).events
            out := .failed e } := by
      simp only [graceServer.ListenAndServeTLS, hcert, he, List.singleton_append]
    refine ⟨heq, ?_⟩
    rw [heq]
    simp [getListener_no_serveEnter]

theorem listenAndServe_failure_witness :
    (demoServer "" 7).ListenAndServe failingOS []
      = { srv := demoServer "" 7
          events := .goHandleSignals ::
            ((demoServer "" 7).getListener failingOS []
              (if (demoServer "" 7).Addr = "" then ":http" else (demoServer "" 7).Addr)).events
          out := .failed "net.Listen error: address already in use" } ∧
    Event.serveEnter ∉ ((demoServer "" 7).ListenAndServeTLS failingOS [] "c" "k").events :=
  ⟨((listenAndServe_failure failingOS [] (demoServer "" 7) "c" "k").1
      "net.Listen error: address already in use" rfl).1,
   ((listenAndServe_failure failingOS [] (demoServer "" 7) "c" "k").2
      "net.Listen error: address already in use" rfl rfl).2⟩

/-! ### Draining without timeout -/

theorem timerStarts_append (xs ys : List Event) :
    timerStarts (xs ++ ys) = timerStarts xs + timerStarts ys := by
  simp [timerStarts]

theorem timerStarts_signalHooks (srv : graceServer) (ppFlag : Nat) (sig : Signal) :
    timerStarts (srv.signalHooks ppFlag sig) = 0 := by
  unfold graceServer.signalHooks
  split
  · rfl
  · simp [timerStarts, List.filter_map]

theorem timerStarts_close (el : graceListener) : timerStarts el.Close.events = 0 := by
  unfold graceListener.Close
  repeat' split
  all_goals rfl

theorem timerStarts_fork (os : OS) (g : Globals) : timerStarts (fork os g).events = 0 := by
  unfold fork
  dsimp only
  repeat' split
  all_goals rfl

theorem shutdown_no_timer (d : Int) (srv : graceServer) (hd : d < 0) :
    timerStarts (srv.shutdown d).events = 0 := by
  have h0 : ¬ d ≥ 0 := by omega
  unfold graceServer.shutdown
  dsimp only
  split
  · rfl
  · simp only [h0, if_false, List.nil_append]
    split
    · rfl
    · exact timerStarts_close _
    · exact timerStarts_close _

theorem shutdown_wg (d : Int) (srv : graceServer) : (srv.shutdown d).srv.wg = srv.wg := by
  unfold graceServer.shutdown
  dsimp only
  repeat' split
  all_goals rfl

theorem handleSignal_drain (os : OS) (sig : Signal) (p : Proc) (hd : p.g.DefaultTimeout < 0) :
    (handleSignal os sig p).g.DefaultTimeout = p.g.DefaultTimeout ∧
    timerStarts (handleSignal os sig p).events = timerStarts p.events ∧
    (handleSignal os sig p).srv.wg = p.srv.wg ∧
    (p.srv.state = STATE_TERMINATE → (handleSignal os sig p).srv.state = STATE_TERMINATE) := by
  unfold handleSignal
  split
  · exact ⟨rfl, rfl, rfl, id⟩
  · cases sig with
    | SIGHUP =>
      simp only
      split <;>
        simp [timerStarts_append, timerStarts_signalHooks, timerStarts_fork, fork_keeps_rest]
    | SIGINT =>
      have hterm : p.srv.state = STATE_TERMINATE →
          (p.srv.shutdown p.g.DefaultTimeout).srv.state = STATE_TERMINATE := by
        intro h
        rw [shutdown_not_running _ _ (by rw [h]; decide)]
        exact h
      simp only
      split <;>
        (refine ⟨rfl, ?_, shutdown_wg _ _, hterm⟩
         simp [timerStarts_append, timerStarts_signalHooks, shutdown_no_timer _ _ hd])
    | SIGTERM =>
      have hterm : p.srv.state = STATE_TERMINATE →
          (p.srv.shutdown p.g.DefaultTimeout).srv.state = STATE_TERMINATE := by
        intro h
        rw [shutdown_not_running _ _ (by rw [h]; decide)]
        exact h
      simp only
      split <;>
        (refine ⟨rfl, ?_, shutdown_wg _ _, hterm⟩
         simp [timerStarts_append, timerStarts_signalHooks, shutdown_no_timer _ _ hd])
    | other n =>
      simp [timerStarts_append, timerStarts_signalHooks]

theorem step_drainInv (os : OS) (l : Label) (s s' : Sys) (h : DrainInv s)
    (hstep : s.step os l = some s') : DrainInv s' := by
  obtain ⟨hd, ht, hn, hl, hwg, hret⟩ := h
  unfold Sys.step at hstep
  split at hstep
  · simp at hstep
  · cases l with
    | serveStart =>
      simp only at hstep
      split at hstep
      · simp only [Option.some.injEq] at hstep
        subst hstep
        refine ⟨hd, ?_, hn, hl, hwg, ?_⟩
        · rw [timerStarts_append, ht]; rfl
        · intro hp; simp at hp
      · simp at hstep
    | accept =>
      simp only at hstep
      split at hstep
      · simp only [Option.some.injEq] at hstep
        subst hstep
        refine ⟨hd, ht, hn, hl, ?_, ?_⟩
        · simp only [graceServer.accepted]; omega
        · intro hp; simp_all
      · simp at hstep
    | serveLoopEnd =>
      simp only at hstep
      split at hstep
      · simp only [Option.some.injEq] at hstep
        subst hstep
        exact ⟨hd, ht, hn, hl, hwg, fun hp => by simp at hp⟩
      · simp at hstep
    | connClose =>
      simp only at hstep
      split at hstep
      · rename_i hlt
        have hpos : s.p.srv.wg ≠ 0 := by omega
        simp only [Option.some.injEq] at hstep
        subst hstep
        simp only [graceServer.connClosed, hpos, if_false]
        refine ⟨hd, ?_, hn, hl, ?_, ?_⟩
        · rw [timerStarts_append, ht]; rfl
        · simp only; omega
        · intro hp
          exact absurd (hret hp).1 hpos
      · simp at hstep
    | signal sig =>
      simp only [Option.some.injEq] at hstep
      subst hstep
      obtain ⟨h1, h2, h3, h4⟩ := handleSignal_drain os sig s.p hd
      refine ⟨by simpa [h1] using hd, by simpa [h2] using ht, ?_, hl, ?_, ?_⟩
      · simp only [h2]; omega
      · simp only [h3]; exact hwg
      · intro hp
        exact ⟨by simp only [h3]; exact (hret hp).1, h4 (hret hp).2⟩
    | timerEnter =>
      simp only [hn, if_true] at hstep
      simp at hstep
    | timerTurn =>
      simp only [hl, if_true] at hstep
      simp at hstep
    | serveFinish =>
      simp only at hstep
      split at hstep
      · rename_i hw
        simp only [Option.some.injEq] at hstep
        subst hstep
        exact ⟨hd, ht, hn, hl, hwg, fun _ => ⟨hw.2, rfl⟩⟩
      · simp at hstep

theorem run_drainInv (os : OS) (ls : List Label) (s s' : Sys) (h : DrainInv s)
    (hrun : Sys.run os ls s = some s') : DrainInv s' := by
  induction ls generalizing s with
  | nil =>
    simp only [Sys.run, Option.some.injEq] at hrun
    subst hrun
    exact h
  | cons l rest ih =>
    simp only [Sys.run] at hrun
    cases hs : s.step os l with
    | none => simp [hs] at hrun
    | some t =>
      rw [hs] at hrun
      exact ih t (step_drainInv os l s t h hs) hrun

theorem start_drainInv (g : Globals) (srv : graceServer) (hd : g.DefaultTimeout < 0) :
    DrainInv (Sys.start g srv) :=
  ⟨hd, rfl, rfl, rfl, rfl, fun hp => by simp [Sys.start] at hp⟩

/-- C7: with no drain timeout (`DefaultTimeout < 0`) `Serve` does not finish
while work is outstanding. In every state reached from the start by the steps
of the tasks (accept adds 1 to the counter, the first close of a connection
subtracts 1), no `serverTimeout` task has been started, the counter is the
number of accepted connections not yet closed, the step that ends `Serve` can
be taken only with a zero counter, that is with every accepted connection
closed, and it sets the state to `STATE_TERMINATE`; and whenever `Serve` has
returned, every accepted connection has been closed. -/
theorem serve_returns_only_when_drained (os : OS) (g : Globals) (srv : graceServer)
    (ls : List Label) (s : Sys) (hd : g.DefaultTimeout < 0)
    (hrun : Sys.run os ls (Sys.start g srv) = some s) :
    timerStarts s.p.events = 0 ∧
    s.p.srv.wg + s.nClosed = s.nAccepted ∧
    (s.phase = .returned →
      s.p.srv.wg = 0 ∧ s.nClosed = s.nAccepted ∧ s.p.srv.state = STATE_TERMINATE) ∧
    (∀ s', s.step os .serveFinish = some s' →
      s.p.srv.wg = 0 ∧ s.nClosed = s.nAccepted ∧
      s'.p.srv.state = STATE_TERMINATE ∧ s'.phase = .returned) := by
  obtain ⟨_, ht, _, _, hwg, hret⟩ := run_drainInv os ls _ s (start_drainInv g srv hd) hrun
  refine ⟨ht, hwg, ?_, ?_⟩
  · intro hp
    obtain ⟨h0, hst⟩ := hret hp
    exact ⟨h0, by omega, hst⟩
  · intro s' hstep
    unfold Sys.step at hstep
    split at hstep
    · simp at hstep
    · simp only at hstep
      split at hstep
      · rename_i hw
        simp only [Option.some.injEq] at hstep
        subst hstep
        exact ⟨hw.2, by have := hw.2; omega, rfl, rfl⟩
      · simp at hstep

theorem serve_returns_only_when_drained_witness :
    Sys.run demoOS demoLabels (Sys.start demoGlobals (demoServer ":8080" 7)) = some demoDrained ∧
    demoDrained.phase = .returned ∧ demoDrained.nAccepted = 2 ∧
    (demoDrained.p.srv.wg = 0 ∧ demoDrained.nClosed = demoDrained.nAccepted ∧
      demoDrained.p.srv.state = STATE_TERMINATE) ∧
    Sys.run demoOS [.serveStart, .accept, .accept, .signal .SIGINT, .serveLoopEnd, .connClose,
      .serveFinish] (Sys.start demoGlobals (demoServer ":8080" 7)) = none :=
  ⟨by decide, by decide, by decide,
   (serve_returns_only_when_drained demoOS demoGlobals (demoServer ":8080" 7) demoLabels
     demoDrained (by decide) (by decide)).2.2.1 (by decide),
   by decide⟩

/-! ### The lifecycle state -/

/-- C8, as stated, fails: the start of `Serve` writes `STATE_RUNNING` whatever
the state is, so it takes a server from `STATE_TERMINATE` and from
`STATE_SHUTTING_DOWN` back to `STATE_RUNNING`. The second case occurs in a run
of the tasks: a termination signal handled before `Serve` is called puts the
server in `STATE_SHUTTING_DOWN`, and the start of `Serve` makes it
`STATE_RUNNING` again. -/
theorem state_not_monotonic_counterexample :
    (StateOp.apply 0 .serveStart { demoServer ":8080" 7 with state := STATE_TERMINATE }).state
      = STATE_RUNNING ∧
    (StateOp.apply 0 .serveStart { demoServer ":8080" 7 with state := STATE_SHUTTING_DOWN }).state
      = STATE_RUNNING ∧
    (Sys.run demoOS [.signal .SIGINT]
      (Sys.start demoGlobals (demoServer ":8080" 7))).map (fun s => s.p.srv.state)
      = some STATE_SHUTTING_DOWN ∧
    (Sys.run demoOS [.signal .SIGINT, .serveStart]
      (Sys.start demoGlobals (demoServer ":8080" 7))).map (fun s => s.p.srv.state)
      = some STATE_RUNNING := by
  refine ⟨by decide, by decide, by decide, by decide⟩

/-- C8, amended: of the operations that write `srv.state`, `shutdown` and the
completion of `Serve` never move a lifecycle state backwards in the order
`STATE_RUNNING < STATE_SHUTTING_DOWN < STATE_TERMINATE`: `shutdown` takes
`STATE_RUNNING` to `STATE_SHUTTING_DOWN` and leaves the other states as they
are, the completion of `Serve` sets `STATE_TERMINATE`. The start of `Serve`
sets `STATE_RUNNING` whatever the state was. -/
theorem state_writes (d : Int) (srv : graceServer)
    (hlife : srv.state = STATE_RUNNING ∨ srv.state = STATE_SHUTTING_DOWN ∨
      srv.state = STATE_TERMINATE) :
    (∀ op : StateOp, op ≠ .serveStart → srv.state ≤ (op.apply d srv).state) ∧
    (StateOp.apply d .shutdown srv).state
      = (if srv.state = STATE_RUNNING then STATE_SHUTTING_DOWN else srv.state) ∧
    (StateOp.apply d .serveEnd srv).state = STATE_TERMINATE ∧
    (StateOp.apply d .serveStart srv).state = STATE_RUNNING := by
  have hsd : (StateOp.apply d .shutdown srv).state
      = (if srv.state = STATE_RUNNING then STATE_SHUTTING_DOWN else srv.state) := by
    by_cases h : srv.state = STATE_RUNNING
    · simp only [StateOp.apply, h, if_true]
      exact shutdown_running_state d srv h
    · simp only [StateOp.apply, h, if_false]
      rw [shutdown_not_running d srv h]
  refine ⟨?_, hsd, rfl, rfl⟩
  intro op hop
  cases op with
  | serveStart => exact absurd rfl hop
  | shutdown =>
    rw [hsd]
    split
    · rename_i h
      rw [h]; decide
    · exact Nat.le_refl _
  | serveEnd =>
    show srv.state ≤ STATE_TERMINATE
    rcases hlife with h | h | h <;> rw [h] <;> decide

theorem state_writes_witness :
    (demoServer ":8080" 7).state ≤ (StateOp.apply 0 .shutdown (demoServer ":8080" 7)).state ∧
    (StateOp.apply 0 .shutdown (demoServer ":8080" 7)).state = STATE_SHUTTING_DOWN ∧
    (StateOp.apply 0 .serveStart (demoServer ":8080" 7)).state = STATE_RUNNING :=
  ⟨(state_writes 0 (demoServer ":8080" 7) (Or.inl rfl)).1 .shutdown (by decide),
   (state_writes 0 (demoServer ":8080" 7) (Or.inl rfl)).2.1,
   (state_writes 0 (demoServer ":8080" 7) (Or.inl rfl)).2.2.2⟩

/-! ### Forced release -/

theorem hammerLoop_drains (fuel : Nat) (srv : graceServer)
    (hstate : srv.state ≠ STATE_TERMINATE) (hfuel : srv.wg < fuel) :
    hammerLoop fuel srv
      = some { srv := { srv with wg := 0 }, releases := srv.wg, recovered := false
               done := .panicked } := by
  induction fuel generalizing srv with
  | zero => omega
  | succ k ih =>
    by_cases h0 : srv.wg = 0
    · have hsrv : { srv with wg := 0 } = srv := by
        cases srv
        simp_all
      simp [hammerLoop, hstate, h0, hsrv]
    · have hrec := ih { srv with wg := srv.wg - 1 } hstate (by simp only; omega)
      simp only [hammerLoop, hstate, h0, if_false, hrec, Option.map_some']
      congr 2
      omega

/-- C12: forced release drives the counter to zero and ends. When
`serverTimeout` runs in state `STATE_SHUTTING_DOWN` with `n` on the counter
and nothing else writes the state meanwhile, then with any number of turns
above `n` the loop ends after exactly `n` successful calls of `srv.wg.Done()`,
which leave the counter at zero; the next call panics, the deferred `recover()`
catches it and `serverTimeout` returns normally. Entered in any other state,
`serverTimeout` returns at once without a release. -/
theorem serverTimeout_forced_release (fuel : Nat) (srv : graceServer) :
    (srv.state = STATE_SHUTTING_DOWN → srv.wg < fuel →
      srv.serverTimeout fuel
        = some { srv := { srv with wg := 0 }, releases := srv.wg, recovered := true
                 done := .returned }) ∧
    (srv.state ≠ STATE_SHUTTING_DOWN →
      srv.serverTimeout fuel
        = some { srv := srv, releases := 0, recovered := false, done := .returned }) := by
  constructor
  · intro hs hfuel
    have hne : srv.state ≠ STATE_TERMINATE := by rw [hs]; decide
    simp [graceServer.serverTimeout, hs, hammerLoop_drains fuel srv hne hfuel]
  · intro hs
    simp [graceServer.serverTimeout, hs]

theorem serverTimeout_forced_release_witness :
    ({ demoServer ":8080" 7 with state := STATE_SHUTTING_DOWN, wg := 3 }).serverTimeout 4
      = some { srv := { demoServer ":8080" 7 with state := STATE_SHUTTING_DOWN, wg := 0 }
               releases := 3, recovered := true, done := .returned } ∧
    (demoServer ":8080" 7).serverTimeout 4
      = some { srv := demoServer ":8080" 7, releases := 0, recovered := false
               done := .returned } :=
  ⟨(serverTimeout_forced_release 4
      { demoServer ":8080" 7 with state := STATE_SHUTTING_DOWN, wg := 3 }).1
      (by decide) (by decide),
   (serverTimeout_forced_release 4 (demoServer ":8080" 7)).2 (by decide)⟩

/-! ### A failed launch -/

/-- C11, as stated, fails: on an operating system where `cmd.Start()` fails,
`fork` does not return to its caller: it reaches `log.Fatalf`, which ends the
process. The `handleSignals` turn for `SIGHUP` ends the process as well, and
after it no step of the serving process is enabled (here: no further
connection is accepted). -/
theorem fork_failed_launch_counterexample :
    (fork noLaunchOS demoGlobals).done = .exited ∧
    (fork noLaunchOS demoGlobals).events
      = [.cmdStart "/bin/app" ["-v", "-graceful", "-socketorder=:8080,:8443"]
          [some { sock := 7 }, some { sock := 8 }]] ∧
    (handleSignal noLaunchOS .SIGHUP demoProc).done = .exited ∧
    (Sys.run noLaunchOS [.serveStart, .signal .SIGHUP]
      (Sys.start demoGlobals (demoServer ":8080" 7))).map (fun s => s.p.done)
      = some .exited ∧
    Sys.run noLaunchOS [.serveStart, .signal .SIGHUP, .accept]
      (Sys.start demoGlobals (demoServer ":8080" 7)) = none ∧
    (Sys.run demoOS [.serveStart, .signal .SIGHUP, .accept]
      (Sys.start demoGlobals (demoServer ":8080" 7))).map (fun s => s.nAccepted)
      = some 1 := by
  refine ⟨by decide, by decide, by decide, by decide, by decide, by decide⟩

theorem fork_launch_event (os : OS) (g : Globals) (path : String) (args : List String)
    (files : List (Option File)) (hmem : Event.cmdStart path args files ∈ (fork os g).events) :
    (fork os g).events = [.cmdStart path args files] ∧
    (fork os g).err = os.cmdStart path args files ∧
    (fork os g).done
      = (if os.cmdStart path args files = none then .returned else .exited) := by
  unfold fork at hmem ⊢
  dsimp only at hmem ⊢
  split at hmem
  · simp at hmem
  · rename_i hg
    split at hmem
    · simp at hmem
    · rename_i hlists
      split at hmem
      · simp at hmem
      · rename_i hargs
        split at hmem <;>
        · rename_i hstart
          simp only [List.mem_singleton, Event.cmdStart.injEq] at hmem
          obtain ⟨rfl, rfl, rfl⟩ := hmem
          simp only [hg, if_false, hlists, hargs, true_and]
          rw [hargs] at hstart
          simp [hstart]

theorem fork_returned_err (os : OS) (g : Globals) (h : (fork os g).done = .returned) :
    (fork os g).err = none := by
  unfold fork at h ⊢
  dsimp only at h ⊢
  repeat' split
  all_goals first | rfl | simp_all

/-- C11, amended: a failed launch ends the current process. For every call of
`fork` in which `cmd.Start()` returns an error, `fork` reaches `log.Fatalf`:
it does not return to its caller and the process is ended, with the fork
guard set and the one launch attempted. `fork` never returns an error to
`handleSignals`. Once the process has ended, no further signal is handled and
no step of the serving tasks is enabled. -/
theorem fork_failed_launch (os : OS) (g : Globals) (path : String) (args : List String)
    (files : List (Option File)) (e : String)
    (hmem : Event.cmdStart path args files ∈ (fork os g).events)
    (hfail : os.cmdStart path args files = some e) :
    (fork os g).done = .exited ∧
    (fork os g).err = some e ∧
    (fork os g).g.runningServersForked = true ∧
    (fork os g).events = [.cmdStart path args files] ∧
    (∀ g2 : Globals, (fork os g2).done = .returned → (fork os g2).err = none) ∧
    (∀ (p : Proc) (sig : Signal), p.done = .exited → handleSignal os sig p = p) ∧
    (∀ (s : Sys) (l : Label), s.p.done = .exited → s.step os l = none) := by
  obtain ⟨hev, herr, hdone⟩ := fork_launch_event os g path args files hmem
  refine ⟨?_, ?_, fork_sets_guard os g, hev, fork_returned_err os, ?_, ?_⟩
  · rw [hdone, hfail]; simp
  · rw [herr, hfail]
  · intro p sig hp
    simp [handleSignal, hp]
  · intro s l hs
    simp [Sys.step, hs]

theorem fork_failed_launch_witness :
    (fork noLaunchOS demoGlobals).done = .exited ∧
    (fork noLaunchOS demoGlobals).err
      = some "fork/exec /bin/app: no such file or directory" ∧
    (fork noLaunchOS demoGlobals).g.runningServersForked = true :=
  ⟨(fork_failed_launch noLaunchOS demoGlobals "/bin/app"
      ["-v", "-graceful", "-socketorder=:8080,:8443"] [some { sock := 7 }, some { sock := 8 }]
      "fork/exec /bin/app: no such file or directory" (by decide) rfl).1,
   (fork_failed_launch noLaunchOS demoGlobals "/bin/app"
      ["-v", "-graceful", "-socketorder=:8080,:8443"] [some { sock := 7 }, some { sock := 8 }]
      "fork/exec /bin/app: no such file or directory" (by decide) rfl).2.1,
   (fork_failed_launch noLaunchOS demoGlobals "/bin/app"
      ["-v", "-graceful", "-socketorder=:8080,:8443"] [some { sock := 7 }, some { sock := 8 }]
      "fork/exec /bin/app: no such file or directory" (by decide) rfl).2.2.1⟩

/-! ### The kill of the parent -/

theorem getListener_no_kill (os : OS) (m : OffsetMap) (srv : graceServer) (laddr : String) :
    Event.killParent ∉ (srv.getListener os m laddr).events := by
  unfold graceServer.getListener
  dsimp only
  repeat' split
  all_goals simp

theorem killParentThenServe_spec (os : OS) (srv : graceServer) (ev : List Event)
    (hev : Event.killParent ∉ ev) :
    (Event.killParent ∈ (killParentThenServe os srv ev).events →
      srv.isChild = true ∧ ∃ rest, (killParentThenServe os srv ev).events
        = ev ++ .killParent :: rest) ∧
    (srv.isChild = true → (killParentThenServe os srv ev).out = .serving →
      os.kill = none ∧ Event.killParent ∈ (killParentThenServe os srv ev).events) ∧
    (srv.isChild = false → Event.killParent ∉ (killParentThenServe os srv ev).events) := by
  unfold killParentThenServe
  by_cases hc : srv.isChild = true
  · simp only [hc, if_true]
    cases hf : os.findParent with
    | some e => simp [hev]
    | none =>
      cases hk : os.kill with
      | some e => simp
      | none => simp
  · simp [hc, hev]

theorem killAfterListener_of (os : OS) (srv srv1 : graceServer) (gl : ListenResult)
    (hsame : srv1.isChild = srv.isChild) (hgl : Event.killParent ∉ gl.events)
    (r : StartResult)
    (hr : (∃ e, gl.res = .error e ∧
        r = { srv := srv, events := [.goHandleSignals] ++ gl.events, out := .failed e }) ∨
      ((∃ l, gl.res = .ok l) ∧
        r = killParentThenServe os srv1 ([.goHandleSignals] ++ gl.events))) :
    KillAfterListener os srv.isChild gl r := by
  have hev : Event.killParent ∉ [Event.goHandleSignals] ++ gl.events := by simp [hgl]
  rcases hr with ⟨e, he, rfl⟩ | ⟨⟨l, hl⟩, rfl⟩
  · refine ⟨fun h => absurd h hev, fun _ => hev, fun _ h => by simp at h, fun _ => hev⟩
  · obtain ⟨h1, h2, h3⟩ := killParentThenServe_spec os srv1 _ hev
    rw [hsame] at h1 h2 h3
    refine ⟨fun h => ?_, fun herr => ?_, h2, h3⟩
    · obtain ⟨hc, rest, hrest⟩ := h1 h
      exact ⟨hc, ⟨l, hl⟩, hgl, rest, by simpa using hrest⟩
    · obtain ⟨e, he⟩ := herr
      rw [hl] at he
      cases he

/-- C14: a forked child kills its parent only once it holds its listener. In
every run of `ListenAndServe` and of `ListenAndServeTLS` the kill of the parent
is attempted only when `isChild` is set and `getListener` has returned a
listener, and it comes after the events of `getListener`; for TLS also only
when the certificate pair has loaded. When `getListener` fails no kill is
attempted; a child enters `Serve` only when the kill returned no error; with
`isChild` false no kill is attempted. -/
theorem kill_only_with_listener (os : OS) (m : OffsetMap) (srv : graceServer)
    (certFile keyFile : String) :
    KillAfterListener os srv.isChild
      (srv.getListener os m (if srv.Addr = "" then ":http" else srv.Addr))
      (srv.ListenAndServe os m) ∧
    KillAfterListener os srv.isChild
      (srv.getListener os m (if srv.Addr = "" then ":https" else srv.Addr))
      (srv.ListenAndServeTLS os m certFile keyFile) ∧
    (Event.killParent ∈ (srv.ListenAndServeTLS os m certFile keyFile).events →
      os.loadX509KeyPair certFile keyFile = none) := by
  refine ⟨?_, ?_, ?_⟩
  · cases hres : (srv.getListener os m (if srv.Addr = "" then ":http" else srv.Addr)).res with
    | error e =>
      refine killAfterListener_of os srv srv _ rfl (getListener_no_kill _ _ _ _) _
        (Or.inl ⟨e, hres, ?_⟩)
      simp only [graceServer.ListenAndServe, hres]
    | ok l =>
      refine killAfterListener_of os srv
        { srv with GraceListener := some (.shim (newGraceListener l)) } _ rfl
        (getListener_no_kill _ _ _ _) _ (Or.inr ⟨⟨l, hres⟩, ?_⟩)
      simp only [graceServer.ListenAndServe, hres]
  · cases hcert : os.loadX509KeyPair certFile keyFile with
    | some e =>
      have hr : srv.ListenAndServeTLS os m certFile keyFile
          = { srv := srv, events := [], out := .failed e } := by
        simp only [graceServer.ListenAndServeTLS, hcert]
      rw [hr]
      exact ⟨fun h => by simp at h, fun _ => by simp, fun _ h => by simp at h, fun _ => by simp⟩
    | none =>
      cases hres : (srv.getListener os m (if srv.Addr = "" then ":https" else srv.Addr)).res with
      | error e =>
        refine killAfterListener_of os srv srv _ rfl (getListener_no_kill _ _ _ _) _
          (Or.inl ⟨e, hres, ?_⟩)
        simp only [graceServer.ListenAndServeTLS, hcert, hres]
      | ok l =>
        refine killAfterListener_of os srv
          { srv with tlsInnerListener := some (newGraceListener l)
                     GraceListener := some (.tlsOver (newGraceListener l)) } _ rfl
          (getListener_no_kill _ _ _ _) _ (Or.inr ⟨⟨l, hres⟩, ?_⟩)
        simp only [graceServer.ListenAndServeTLS, hcert, hres]
  · intro hmem
    cases hcert : os.loadX509KeyPair certFile keyFile with
    | none => rfl
    | some e =>
      simp [graceServer.ListenAndServeTLS, hcert] at hmem

theorem kill_only_with_listener_witness :
    ((demoChild ":8080").ListenAndServe demoOS []).events
      = [.goHandleSignals, .newFile 3, .killParent, .serveEnter] ∧
    Event.killParent ∉ ((demoChild ":8080").ListenAndServe failingOS []).events ∧
    Event.killParent ∉ ((demoServer ":8080" 7).ListenAndServeTLS demoOS [] "c" "k").events :=
  ⟨by decide,
   (kill_only_with_listener failingOS [] (demoChild ":8080") "c" "k").1.2.1 ⟨_, rfl⟩,
   (kill_only_with_listener demoOS [] (demoServer ":8080" 7) "c" "k").2.1.2.2.2 (by decide)⟩

end Grace

namespace Session

/-! ## The session garbage collection -/

/-- C13 fails on the code: after session `"A"` is created at time 0 and session
`"B"` at time 10 (`maxlifetime` 100, neither updated), `SessionGC` at time 105
returns with the provider unchanged. It looks at the back of the list, where
`PushBack` has put the newest session `"B"`, finds it not expired and stops;
the expired session `"A"` is still in the list and in the map. Once `"B"` is
expired as well (time 111), the same call removes both. -/
theorem sessionGC_leaves_expired :
    twoSessions.listed = [{ sid := "A", timeAccessed := 0 }, { sid := "B", timeAccessed := 10 }] ∧
    twoSessions.SessionGC 105 = some twoSessions ∧
    expired twoSessions.maxlifetime 105 { sid := "A", timeAccessed := 0 } = true ∧
    expired twoSessions.maxlifetime 105 { sid := "B", timeAccessed := 10 } = false ∧
    ({ sid := "A", timeAccessed := 0 } : MemSessionStore) ∈ twoSessions.listed ∧
    ({ sid := "A", timeAccessed := 0 } : MemSessionStore) ∈ twoSessions.mapped ∧
    (twoSessions.SessionGC 111).map (fun pder => (pder.listed, pder.mapped)) = some ([], []) := by
  refine ⟨by decide, by decide, by decide, by decide, by decide, by decide, by decide⟩

end Session
